import Mathlib

/-!
Screen capture over X11: `internal/xwindow/xwindow.go`.

A shallow embedding of the package `xwindow`: the memoised connection
(`newXGBConn`), the capture pipeline (`Capture`) and the display bounds query
(`GetDisplayBounds`).

Conventions of the embedding.

* A Go `int` is a mathematical integer reduced to 64-bit two's complement by
  `wrapInt` after every arithmetic operation whose operands are not bounded by
  their types. Values read from `int16`/`uint16`/`uint32` fields are used as
  they are: sums and differences of two of them cannot leave the 64-bit range.
* A byte slice is a `List Nat` whose capacity equals its length.
* The collaborators (the X server, the xinerama and MIT-SHM extensions, the
  System V shared-memory calls, the raster allocator `util.CreateImage`) are
  the fields of `Env`. What they change is recorded in `World`.
* A run-time panic is the `Exit.fault` exit of a function body; the deferred
  `recover` of `Capture` and `GetDisplayBounds` turns it into a result.
-/

namespace xwindow

/-! ## Machine integers -/

/-- The value a Go `int` (64 bits, two's complement) holds after an operation
whose mathematical result is `a`. -/
def wrapInt (a : Int) : Int :=
  (a + 9223372036854775808) % 18446744073709551616 - 9223372036854775808

/-- The Go conversion `int16(a)`. -/
def int16 (a : Int) : Int := (a + 32768) % 65536 - 32768

/-- The Go conversion `uint16(a)`. -/
def uint16 (a : Int) : Int := a % 65536

/-- The integer `a` is a value of the Go type `int`. -/
def isInt (a : Int) : Prop := -9223372036854775808 ≤ a ∧ a < 9223372036854775808

instance (a : Int) : Decidable (isInt a) := by
  unfold isInt; infer_instance

/-! ## The `image` package: points and rectangles -/

/-- Go `image.Point`. -/
structure Point where
  X : Int
  Y : Int
deriving DecidableEq

/-- Go `image.Rectangle`: the points with `Min.X ≤ x < Max.X`, `Min.Y ≤ y < Max.Y`. -/
structure Rectangle where
  Min : Point
  Max : Point
deriving DecidableEq

/-- Go `image.ZR`, the zero rectangle. -/
def ZR : Rectangle := ⟨⟨0, 0⟩, ⟨0, 0⟩⟩

/-- Go `image.Rect`: the corners are swapped where needed so that `Min ≤ Max`. -/
def Rect (x0 y0 x1 y1 : Int) : Rectangle :=
  let xs := if x0 > x1 then (x1, x0) else (x0, x1)
  let ys := if y0 > y1 then (y1, y0) else (y0, y1)
  ⟨⟨xs.1, ys.1⟩, ⟨xs.2, ys.2⟩⟩

/-- Go `Rectangle.Empty`. -/
def Rectangle.Empty (r : Rectangle) : Bool :=
  decide (r.Min.X ≥ r.Max.X) || decide (r.Min.Y ≥ r.Max.Y)

/-- Go `Rectangle.Dx`. -/
def Rectangle.Dx (r : Rectangle) : Int := wrapInt (r.Max.X - r.Min.X)

/-- Go `Rectangle.Dy`. -/
def Rectangle.Dy (r : Rectangle) : Int := wrapInt (r.Max.Y - r.Min.Y)

/-- Go `Rectangle.Intersect`: the largest rectangle inside both, `ZR` when
that is empty. -/
def Rectangle.Intersect (r s : Rectangle) : Rectangle :=
  let minX := if r.Min.X < s.Min.X then s.Min.X else r.Min.X
  let minY := if r.Min.Y < s.Min.Y then s.Min.Y else r.Min.Y
  let maxX := if r.Max.X > s.Max.X then s.Max.X else r.Max.X
  let maxY := if r.Max.Y > s.Max.Y then s.Max.Y else r.Max.Y
  let t : Rectangle := ⟨⟨minX, minY⟩, ⟨maxX, maxY⟩⟩
  if t.Empty then ZR else t

/-- Go `image.RGBA`: the pixel at `(i, j)` of a raster whose `Rect.Min` is the
origin starts at `Pix[j*Stride + 4*i]`. -/
structure RGBA where
  Pix : List Nat
  Stride : Int
  Rect : Rectangle
deriving DecidableEq

/-- The four bytes `Pix[j*Stride + 4*i ..]` of the pixel `(i, j)`. -/
def RGBA.pixel (img : RGBA) (i j : Int) : List Nat :=
  (img.Pix.drop (j * img.Stride + 4 * i).toNat).take 4

/-! ## The collaborators -/

/-- A Go `error` value that is not nil. -/
abbrev Err := String

/-- A connection handle `*xgb.Conn`. -/
abbrev Conn := Nat

/-- Go `xinerama.ScreenInfo`: `XOrg`, `YOrg` are `int16`, `Width`, `Height` are `uint16`. -/
structure ScreenInfo where
  XOrg : Int
  YOrg : Int
  Width : Nat
  Height : Nat
deriving DecidableEq

/-- Go `xinerama.QueryScreensReply`: `Number` is a `uint32`. -/
structure QueryScreensReply where
  Number : Nat
  ScreenInfo : List ScreenInfo
deriving DecidableEq

/-- The arguments of an image request (`xproto.GetImage` or `mshm.GetImage`)
as the server receives them: `X`, `Y` are `int16`, `Width`, `Height` are `uint16`,
`PlaneMask` is a `uint32`. -/
structure ImageRequest where
  viaShm : Bool
  Format : Nat
  Drawable : Nat
  X : Int
  Y : Int
  Width : Int
  Height : Int
  PlaneMask : Nat
deriving DecidableEq

/-- Go `xproto.ImageFormatZPixmap`. -/
def ImageFormatZPixmap : Nat := 2

/-- What the collaborators answer.

* `NewConn n` is the outcome of the `n`-th execution of `xgb.NewConn()`;
* `xineramaInit`, `mshmInit` are the errors of `xinerama.Init`, `mshm.Init`
  (`none` for nil);
* `WidthInPixels`, `HeightInPixels` (`uint16`) and `Root` come from the default
  screen of `xproto.Setup`;
* `CreateImage` is `util.CreateImage`, the raster allocator;
* `shmGet size` is `shm.Get(IPC_PRIVATE, size, IPC_CREAT|0777)`, `shmAt id` is
  `shm.At(id, 0, 0)`;
* `shmGetImage req` is the reply of `mshm.GetImage`, on success the bytes the
  server stored into the segment; `GetImage req` is the reply of
  `xproto.GetImage`, on success its `Data`. -/
structure Env where
  NewConn : Nat → Option Conn × Option Err
  xineramaInit : Option Err
  QueryScreens : Except Err QueryScreensReply
  mshmInit : Option Err
  WidthInPixels : Nat
  HeightInPixels : Nat
  Root : Nat
  CreateImage : Rectangle → Except Err RGBA
  shmGet : Int → Except Err Nat
  NewSegId : Except Err Nat
  shmAt : Nat → Except Err Unit
  shmGetImage : ImageRequest → Except Err (List Nat)
  GetImage : ImageRequest → Except Err (List Nat)

/-- The state the package and its collaborators keep.

* `onceDone`, `xgbConn`, `xgbConnErr`: the package variables `xgbConnOnce`,
  `xgbConn`, `xgbConnErr`; `attempts` counts the executions of `xgb.NewConn`;
* `allocated`: the shared-memory segments that exist and are not marked for
  removal; `mapped`: the segments mapped into the process; `attached`: the
  segment ids attached to the connection;
* `requests`: the image requests sent to the server, oldest first. -/
structure World where
  onceDone : Bool
  xgbConn : Option Conn
  xgbConnErr : Option Err
  attempts : Nat
  allocated : List Nat
  mapped : List Nat
  attached : List Nat
  requests : List ImageRequest
deriving DecidableEq

/-- The state of a process that has not called the package yet. -/
def World.fresh : World := ⟨false, none, none, 0, [], [], [], []⟩

/-! ## `newXGBConn` -/

/-- `newXGBConn`: `xgbConnOnce.Do` runs `xgb.NewConn` unless it has run before,
then the package variables are returned. -/
def newXGBConn (env : Env) (w : World) : (Option Conn × Option Err) × World :=
  let w1 : World :=
    if w.onceDone then w
    else
      let r := env.NewConn w.attempts
      { w with onceDone := true, xgbConn := r.1, xgbConnErr := r.2, attempts := w.attempts + 1 }
  ((w1.xgbConn, w1.xgbConnErr), w1)

/-- The results of `calls` successive calls of `newXGBConn`, and the final state. -/
def callsOfNewXGBConn (env : Env) : Nat → World → List (Option Conn × Option Err) × World
  | 0, w => ([], w)
  | n + 1, w =>
    let r := newXGBConn env w
    let rest := callsOfNewXGBConn env n r.2
    (r.1 :: rest.1, rest.2)

/-! ## `Capture` -/

/-- Go builtin `copy(dst, src)` on byte slices that do not overlap: `dst`
afterwards, and the number of bytes copied. -/
def goCopy (dst src : List Nat) : List Nat × Nat :=
  (src.take dst.length ++ dst.drop src.length, min dst.length src.length)

/-- The loop `for bp < len(img.Pix) { copy(img.Pix[bp:], img.Pix[:bp]); bp *= 2 }`,
run for at most `fuel` iterations; `none` when the loop has not ended by then.
`bp` stays below twice the length of a slice, so `bp *= 2` does not wrap. -/
def paintLoop : Nat → List Nat → Nat → Option (List Nat)
  | 0, pix, bp => if bp < pix.length then none else some pix
  | fuel + 1, pix, bp =>
    if bp < pix.length then
      paintLoop fuel (pix.take bp ++ (goCopy (pix.drop bp) (pix.take bp)).1) (bp * 2)
    else some pix

/-- Painting with opaque black: `bp := copy(img.Pix, []byte{0, 0, 0, 255})`
followed by the doubling loop, which is given `len(img.Pix)` iterations. -/
def paint (pix : List Nat) : Option (List Nat) :=
  let r := goCopy pix [0, 0, 0, 255]
  paintLoop pix.length r.1 r.2

/-- One pixel of the blit: `px := img.Pix[io : io+4 : io+4]`,
`d := data[offset : offset+3 : offset+3]`, `px[0] = d[2]`, `px[1] = d[1]`,
`px[2] = d[0]`, `px[3] = 255`. A slice expression out of range panics. -/
def blitPixel (pix data : List Nat) (io offset : Int) : Except String (List Nat) :=
  if 0 ≤ io ∧ io + 4 ≤ pix.length then
    if 0 ≤ offset ∧ offset + 3 ≤ data.length then
      let i := io.toNat
      let o := offset.toNat
      .ok ((((pix.set i (data.getD (o + 2) 0)).set (i + 1) (data.getD (o + 1) 0)).set
        (i + 2) (data.getD o 0)).set (i + 3) 255)
    else .error "runtime error: slice bounds out of range"
  else .error "runtime error: slice bounds out of range"

/-- The inner loop `for ix := intersect.Min.X; ix < intersect.Max.X; ix++`,
with `cols` iterations left: each converts one pixel, then `offset += 4` and
`io += 4`. Returns the raster bytes, `io` and `offset`. -/
def blitRow : Nat → List Nat → List Nat → Int → Int → Except String (List Nat × Int × Int)
  | 0, pix, _, io, offset => .ok (pix, io, offset)
  | cols + 1, pix, data, io, offset =>
    match blitPixel pix data io offset with
    | .error msg => .error msg
    | .ok pix1 => blitRow cols pix1 data (wrapInt (io + 4)) (wrapInt (offset + 4))

/-- The outer loop `for iy := intersect.Min.Y; iy < intersect.Max.Y; iy++`,
with `rows` iterations left: one row, then `io += stride`. -/
def blitRows : Nat → Nat → Int → List Nat → List Nat → Int → Int → Except String (List Nat)
  | 0, _, _, pix, _, _, _ => .ok pix
  | rows + 1, cols, stride, pix, data, io, offset =>
    match blitRow cols pix data io offset with
    | .error msg => .error msg
    | .ok (pix1, io1, offset1) =>
      blitRows rows cols stride pix1 data (wrapInt (io1 + stride)) offset1

/-- The hand-written blit of `Capture` (the block `// BitBlt by hand`). The two
counting loops run `Max.Y - Min.Y` and `Max.X - Min.X` times (not at all when
that is negative); their counters stay below `Max`, so `iy++`, `ix++` do not wrap. -/
def blit (img : RGBA) (intersect : Rectangle) (x y x0 y0 : Int) (data : List Nat) :
    Except String RGBA :=
  let offset : Int := 0
  let iRowOffset := wrapInt (wrapInt (intersect.Min.Y - wrapInt (y + y0)) * img.Stride)
  let iColOffset := wrapInt (wrapInt (intersect.Min.X - wrapInt (x + x0)) * 4)
  let io := wrapInt (iRowOffset + iColOffset)
  let stride := wrapInt (img.Stride - wrapInt (wrapInt (intersect.Max.X - intersect.Min.X) * 4))
  match blitRows (intersect.Max.Y - intersect.Min.Y).toNat
      (intersect.Max.X - intersect.Min.X).toNat stride img.Pix data io offset with
  | .error msg => .error msg
  | .ok pix => .ok { img with Pix := pix }

/-- The request `mshm.GetImage(c, root, int16(Min.X), int16(Min.Y), uint16(Dx),
uint16(Dy), 0xffffffff, ImageFormatZPixmap, seg, 0)`. -/
def shmImageRequest (intersect : Rectangle) (root : Nat) : ImageRequest :=
  { viaShm := true, Format := ImageFormatZPixmap, Drawable := root,
    X := int16 intersect.Min.X, Y := int16 intersect.Min.Y,
    Width := uint16 intersect.Dx, Height := uint16 intersect.Dy,
    PlaneMask := 0xffffffff }

/-- The request `xproto.GetImage(c, ImageFormatZPixmap, root, int16(Min.X),
int16(Min.Y), uint16(Dx), uint16(Dy), 0xffffffff)`. -/
def plainImageRequest (intersect : Rectangle) (root : Nat) : ImageRequest :=
  { viaShm := false, Format := ImageFormatZPixmap, Drawable := root,
    X := int16 intersect.Min.X, Y := int16 intersect.Min.Y,
    Width := uint16 intersect.Dx, Height := uint16 intersect.Dy,
    PlaneMask := 0xffffffff }

/-- The mapped segment after the server has stored `written` into it. -/
def overlay (segment written : List Nat) : List Nat :=
  written.take segment.length ++ segment.drop written.length

/-- The deferred calls `shm.Dt(data)`, `shm.Rm(shmId)`, `mshm.Detach(c, seg)`,
run in this order when `Capture` exits. -/
def World.release (w : World) (seg shmId : Nat) : World :=
  { w with mapped := w.mapped.erase shmId, allocated := w.allocated.erase shmId,
           attached := w.attached.erase seg }

/-- Running the deferred calls registered so far, if any. -/
def World.runDeferred (w : World) : Option (Nat × Nat) → World
  | none => w
  | some (seg, shmId) => w.release seg shmId

/-- The block `if useShm { ... } else { ... }` of `Capture` that fills `data`.
Returns the error of an early `return nil, err` or the raw bytes, the state,
and the deferred calls registered (`seg`, `shmId`), which are registered only
after `shm.At` has succeeded. A segment that `shm.At` mapped has the size given
to `shm.Get` and is zero-filled. -/
def fetch (env : Env) (w : World) (useShm : Bool) (intersect : Rectangle) :
    Except Err (List Nat) × World × Option (Nat × Nat) :=
  if useShm then
    let shmSize := wrapInt (wrapInt (intersect.Dx * intersect.Dy) * 4)
    match env.shmGet shmSize with
    | .error err => (.error err, w, none)
    | .ok shmId =>
      let w1 := { w with allocated := shmId :: w.allocated }
      match env.NewSegId with
      | .error err => (.error err, w1, none)
      | .ok seg =>
        match env.shmAt shmId with
        | .error err => (.error err, w1, none)
        | .ok _ =>
          let data := List.replicate shmSize.toNat 0
          let w2 := { w1 with mapped := shmId :: w1.mapped, attached := seg :: w1.attached }
          let req := shmImageRequest intersect env.Root
          let w3 := { w2 with requests := w2.requests ++ [req] }
          match env.shmGetImage req with
          | .error err => (.error err, w3, some (seg, shmId))
          | .ok written => (.ok (overlay data written), w3, some (seg, shmId))
  else
    let req := plainImageRequest intersect env.Root
    let w1 := { w with requests := w.requests ++ [req] }
    match env.GetImage req with
    | .error err => (.error err, w1, none)
    | .ok data => (.ok data, w1, none)

/-- The rectangle `intersect` of `Capture`, the transfer rectangle:
`wholeScreenBounds := image.Rect(0, 0, W, H)`,
`targetBounds := image.Rect(x+x0, y+y0, x+x0+width, y+y0+height)`,
`intersect := wholeScreenBounds.Intersect(targetBounds)`. -/
def transferRect (W H : Nat) (x y width height x0 y0 : Int) : Rectangle :=
  let wholeScreenBounds := Rect 0 0 W H
  let targetBounds := Rect (wrapInt (x + x0)) (wrapInt (y + y0))
    (wrapInt (wrapInt (x + x0) + width)) (wrapInt (wrapInt (y + y0) + height))
  wholeScreenBounds.Intersect targetBounds

/-- How a function body is left: by a `return` of the two results, or by a panic. -/
inductive Exit where
  | ret (img : Option RGBA) (e : Option Err)
  | fault (msg : String)
deriving DecidableEq

/-- The body of `Capture` below its first `defer`, with the deferred
shared-memory calls run at its exit; `none` when the painting loop does not end. -/
def captureBody (env : Env) (w0 : World) (x y width height : Int) : Option (Exit × World) :=
  match newXGBConn env w0 with
  | ((_, some err), w) => some (.ret none (some err), w)
  | ((_, none), w) =>
    match env.xineramaInit with
    | some err => some (.ret none (some err), w)
    | none =>
      match env.QueryScreens with
      | .error err => some (.ret none (some err), w)
      | .ok reply =>
        match reply.ScreenInfo with
        | [] => some (.fault "runtime error: index out of range [0] with length 0", w)
        | primary :: _ =>
          let x0 := primary.XOrg
          let y0 := primary.YOrg
          let useShm := env.mshmInit.isNone
          let intersect := transferRect env.WidthInPixels env.HeightInPixels x y width height x0 y0
          let rect := Rect 0 0 width height
          match env.CreateImage rect with
          | .error err => some (.ret none (some err), w)
          | .ok img0 =>
            match paint img0.Pix with
            | none => none
            | some pix =>
              let img : RGBA := { img0 with Pix := pix }
              if intersect.Empty then some (.ret (some img) none, w)
              else
                match fetch env w useShm intersect with
                | (.error err, w1, deferred) =>
                  some (.ret none (some err), w1.runDeferred deferred)
                | (.ok data, w1, deferred) =>
                  match blit img intersect x y x0 y0 data with
                  | .error msg => some (.fault msg, w1.runDeferred deferred)
                  | .ok img1 => some (.ret (some img1) none, w1.runDeferred deferred)

/-- What a call of `Capture` hands back: the two results and the state. -/
structure Result where
  img : Option RGBA
  e : Option Err
  world : World
deriving DecidableEq

/-- `Capture(x, y, width, height)`: the body, and the deferred function that
recovers a panic into `img = nil`, `e = errors.New(...)`. -/
def Capture (env : Env) (w0 : World) (x y width height : Int) : Option Result :=
  match captureBody env w0 x y width height with
  | none => none
  | some (.ret img e, w) => some ⟨img, e, w⟩
  | some (.fault msg, w) => some ⟨none, some msg, w⟩

/-! ## `GetDisplayBounds` -/

/-- Indexing `reply.ScreenInfo[i]` with a Go `int`: out of range panics. -/
def indexScreenInfo (l : List ScreenInfo) (i : Int) : Except String ScreenInfo :=
  if 0 ≤ i then
    match l[i.toNat]? with
    | some s => .ok s
    | none => .error "runtime error: index out of range"
  else .error "runtime error: index out of range"

/-- The body of `GetDisplayBounds` below its `defer`: the rectangle returned, or a panic. -/
def getDisplayBoundsBody (env : Env) (w0 : World) (displayIndex : Int) :
    Except String Rectangle × World :=
  match newXGBConn env w0 with
  | ((_, some _), w) => (.ok ZR, w)
  | ((_, none), w) =>
    match env.xineramaInit with
    | some _ => (.ok ZR, w)
    | none =>
      match env.QueryScreens with
      | .error _ => (.ok ZR, w)
      | .ok reply =>
        if displayIndex ≥ reply.Number then (.ok ZR, w)
        else
          match indexScreenInfo reply.ScreenInfo 0 with
          | .error msg => (.error msg, w)
          | .ok primary =>
            let x0 := primary.XOrg
            let y0 := primary.YOrg
            match indexScreenInfo reply.ScreenInfo displayIndex with
            | .error msg => (.error msg, w)
            | .ok screen =>
              let x := screen.XOrg - x0
              let y := screen.YOrg - y0
              let w1 := screen.Width
              let h := screen.Height
              (.ok (Rect x y (x + w1) (y + h)), w)

/-- `GetDisplayBounds(displayIndex)`: the body, and the deferred function that
recovers a panic into `rect = image.ZR`. -/
def GetDisplayBounds (env : Env) (w0 : World) (displayIndex : Int) : Rectangle × World :=
  match getDisplayBoundsBody env w0 displayIndex with
  | (.ok rect, w) => (rect, w)
  | (.error _, w) => (ZR, w)

/-! ## Vocabulary of the statements -/

/-- The byte at index `k` of a buffer of opaque black pixels: `[0, 0, 0, 255][k mod 4]`. -/
def blackByte (k : Nat) : Nat := if k % 4 = 3 then 255 else 0


/-- Go `image.NewRGBA`, which `util.CreateImage` wraps: `4*w*h` zero bytes, stride `4*w`. -/
def NewRGBA (r : Rectangle) : RGBA :=
  ⟨List.replicate (4 * (r.Max.X - r.Min.X) * (r.Max.Y - r.Min.Y)).toNat 0, 4 * (r.Max.X - r.Min.X), r⟩

/-- A sample of collaborators that all succeed: one display at the origin, a
2 by 2 screen, MIT-SHM present, and a server whose pixels are all `(b, g, r) =
(10, 20, 30)`. -/
def sampleEnv : Env :=
  { NewConn := fun _ => (some 1, none)
    xineramaInit := none
    QueryScreens := .ok ⟨1, [⟨0, 0, 2, 2⟩]⟩
    mshmInit := none
    WidthInPixels := 2
    HeightInPixels := 2
    Root := 0
    CreateImage := fun r => .ok (NewRGBA r)
    shmGet := fun _ => .ok 7
    NewSegId := .ok 3
    shmAt := fun _ => .ok ()
    shmGetImage := fun req => .ok (List.flatten (List.replicate (req.Width * req.Height).toNat [10, 20, 30, 0]))
    GetImage := fun req => .ok (List.flatten (List.replicate (req.Width * req.Height).toNat [10, 20, 30, 0])) }

/-- Byte `c` (0 to 3) of the destination pixel converted from the source pixel
at `data[o ..]`: (red, green, blue, 255) out of (blue, green, red, padding). -/
def convByte (data : List Nat) (o c : Nat) : Nat :=
  if c = 0 then data.getD (o + 2) 0
  else if c = 1 then data.getD (o + 1) 0
  else if c = 2 then data.getD o 0
  else 255

/-- Go `Point.In`: the point lies in the rectangle. -/
def Point.In (p : Point) (r : Rectangle) : Prop :=
  r.Min.X ≤ p.X ∧ p.X < r.Max.X ∧ r.Min.Y ≤ p.Y ∧ p.Y < r.Max.Y

instance (p : Point) (r : Rectangle) : Decidable (p.In r) := by
  unfold Point.In; infer_instance

/-- The requested rectangle translated by the primary origin, over the
integers: `(x+x0, y+y0)-(x+x0+width, y+y0+height)`. -/
def requested (x y width height x0 y0 : Int) : Rectangle :=
  ⟨⟨x + x0, y + y0⟩, ⟨x + x0 + width, y + y0 + height⟩⟩

/-- The screen rectangle `(0, 0)-(W, H)`. -/
def screenRect (W H : Nat) : Rectangle := ⟨⟨0, 0⟩, ⟨W, H⟩⟩

/-- A pixel of the screen. -/
structure Colour where
  red : Nat
  green : Nat
  blue : Nat
deriving DecidableEq

/-- The raw buffer `data` holds the rectangle `R` of the screen row-major at 4
bytes per pixel in (blue, green, red, padding) order. -/
def HoldsRect (data : List Nat) (R : Rectangle) (screen : Int → Int → Colour) : Prop :=
  4 * (R.Max.X - R.Min.X) * (R.Max.Y - R.Min.Y) ≤ data.length ∧
  ∀ px py : Int, R.Min.X ≤ px → px < R.Max.X → R.Min.Y ≤ py → py < R.Max.Y →
    data[(4 * ((py - R.Min.Y) * (R.Max.X - R.Min.X) + (px - R.Min.X))).toNat]? =
      some (screen px py).blue ∧
    data[(4 * ((py - R.Min.Y) * (R.Max.X - R.Min.X) + (px - R.Min.X))).toNat + 1]? =
      some (screen px py).green ∧
    data[(4 * ((py - R.Min.Y) * (R.Max.X - R.Min.X) + (px - R.Min.X))).toNat + 2]? =
      some (screen px py).red

/-- A raster of 2 by 2 pixels whose rows are padded to 12 bytes, every byte 9. -/
def paddedRaster : RGBA := ⟨List.replicate 24 9, 12, Rect 0 0 2 2⟩

/-! ## The memoised connection -/

/-- Once `xgbConnOnce` has fired, a call returns the package variables and
changes nothing. -/
theorem newXGBConn_done (env : Env) (w : World) (h : w.onceDone = true) :
    newXGBConn env w = ((w.xgbConn, w.xgbConnErr), w) := by
  simp [newXGBConn, h]

/-- Calls made after `xgbConnOnce` has fired all return the package variables. -/
theorem callsOfNewXGBConn_done (env : Env) (n : Nat) (w : World) (h : w.onceDone = true) :
    callsOfNewXGBConn env n w = (List.replicate n (w.xgbConn, w.xgbConnErr), w) := by
  induction n with
  | zero => rfl
  | succ k ih => simp [callsOfNewXGBConn, newXGBConn_done env w h, ih, List.replicate_succ]

/-- C8. Over every sequence of `n + 1` calls of `newXGBConn` in a fresh process,
`xgb.NewConn` is executed exactly once, by the first call (one execution is
counted after the first call and after the last), and every call returns the
pair the first execution produced, a cached error included. -/
theorem newXGBConn_memoised (env : Env) (n : Nat) :
    (newXGBConn env World.fresh).1 = env.NewConn 0 ∧
    (newXGBConn env World.fresh).2.attempts = 1 ∧
    (callsOfNewXGBConn env (n + 1) World.fresh).2.attempts = 1 ∧
    (callsOfNewXGBConn env (n + 1) World.fresh).1 = List.replicate (n + 1) (env.NewConn 0) := by
  have hd : (newXGBConn env World.fresh).2.onceDone = true := by
    simp [newXGBConn, World.fresh]
  have h1 : (newXGBConn env World.fresh).1 = env.NewConn 0 := by
    simp [newXGBConn, World.fresh]
  have h2 : (newXGBConn env World.fresh).2.attempts = 1 := by
    simp [newXGBConn, World.fresh]
  have hv : ((newXGBConn env World.fresh).2.xgbConn, (newXGBConn env World.fresh).2.xgbConnErr)
      = env.NewConn 0 := by
    simp [newXGBConn, World.fresh]
  refine ⟨h1, h2, ?_, ?_⟩
  · simp only [callsOfNewXGBConn]
    rw [callsOfNewXGBConn_done env n _ hd]
    exact h2
  · simp only [callsOfNewXGBConn]
    rw [callsOfNewXGBConn_done env n _ hd, hv, h1, List.replicate_succ]

/-! ## Painting with opaque black -/

theorem goCopy_length (dst src : List Nat) : (goCopy dst src).1.length = dst.length := by
  simp only [goCopy, List.length_append, List.length_take, List.length_drop]
  omega

/-- One pass of the doubling loop keeps the length. -/
theorem paintStep_length (pix : List Nat) (bp : Nat) :
    (pix.take bp ++ (goCopy (pix.drop bp) (pix.take bp)).1).length = pix.length := by
  simp only [List.length_append, goCopy_length, List.length_take, List.length_drop]
  omega

/-- One pass of the doubling loop: the bytes below `bp` stay, the bytes from `bp`
to `2 * bp` become copies of the bytes `bp` places before. -/
theorem paintStep_getElem? (pix : List Nat) (bp k : Nat) (hk : k < pix.length) (hk2 : k < 2 * bp) :
    (pix.take bp ++ (goCopy (pix.drop bp) (pix.take bp)).1)[k]? =
      if k < bp then pix[k]? else pix[k - bp]? := by
  by_cases hlt : k < bp
  · rw [if_pos hlt, List.getElem?_append_left (by simp only [List.length_take]; omega),
      List.getElem?_take_of_lt hlt]
  · rw [if_neg hlt, List.getElem?_append_right (by simp only [List.length_take]; omega)]
    have hlen : (pix.take bp).length = bp := by simp only [List.length_take]; omega
    simp only [goCopy, hlen, List.length_drop]
    rw [List.getElem?_append_left
      (by simp only [List.length_take, List.length_drop]; omega)]
    rw [List.getElem?_take_of_lt (by omega), List.getElem?_take_of_lt (by omega)]

/-- The doubling loop ends within `fuel` iterations when `len ≤ bp + fuel`, keeps
the length, and extends the black bytes below `bp` to the whole buffer. -/
theorem paintLoop_spec (fuel : Nat) : ∀ (pix : List Nat) (bp : Nat), 0 < bp → 4 ∣ bp →
    pix.length ≤ bp + fuel →
    (∀ k, k < bp → k < pix.length → pix[k]? = some (blackByte k)) →
    ∃ out, paintLoop fuel pix bp = some out ∧ out.length = pix.length ∧
      ∀ k, k < pix.length → out[k]? = some (blackByte k) := by
  induction fuel with
  | zero =>
    intro pix bp _ _ hf hinv
    refine ⟨pix, ?_, rfl, fun k hk => hinv k (by omega) hk⟩
    simp only [paintLoop]
    rw [if_neg (by omega)]
  | succ f ih =>
    intro pix bp hbp h4 hf hinv
    by_cases hlt : bp < pix.length
    · simp only [paintLoop, if_pos hlt]
      obtain ⟨out, ho, hl, hb⟩ := ih (pix.take bp ++ (goCopy (pix.drop bp) (pix.take bp)).1)
        (bp * 2) (by omega) (Dvd.dvd.mul_right h4 2)
        (by rw [paintStep_length]; omega)
        (by
          intro k hk hkl
          rw [paintStep_length] at hkl
          rw [paintStep_getElem? pix bp k hkl (by omega)]
          by_cases hkb : k < bp
          · rw [if_pos hkb]; exact hinv k hkb hkl
          · rw [if_neg hkb, hinv (k - bp) (by omega) (by omega)]
            have : (k - bp) % 4 = k % 4 := by
              obtain ⟨c, hc⟩ := h4
              omega
            simp only [blackByte, this])
      rw [paintStep_length] at hl hb
      exact ⟨out, ho, hl, hb⟩
    · refine ⟨pix, ?_, rfl, fun k hk => hinv k (by omega) hk⟩
      simp only [paintLoop, if_neg hlt]

/-- The painting of `Capture` ends for every buffer, whatever its length, keeps
the length and leaves `Pix[k] = [0, 0, 0, 255][k mod 4]` at every index. -/
theorem paint_spec (pix : List Nat) :
    ∃ out, paint pix = some out ∧ out.length = pix.length ∧
      ∀ k, k < pix.length → out[k]? = some (blackByte k) := by
  match pix with
  | [] => exact ⟨[], by simp [paint, goCopy, paintLoop], rfl, by simp⟩
  | [a] =>
    refine ⟨[0], by simp [paint, goCopy, paintLoop], rfl, ?_⟩
    intro k hk
    have : k = 0 := by simp at hk; omega
    subst this; simp [blackByte]
  | [a, b] =>
    refine ⟨[0, 0], by simp [paint, goCopy, paintLoop], rfl, ?_⟩
    intro k hk
    simp at hk
    interval_cases k <;> simp [blackByte]
  | [a, b, c] =>
    refine ⟨[0, 0, 0], by simp [paint, goCopy, paintLoop], rfl, ?_⟩
    intro k hk
    simp at hk
    interval_cases k <;> simp [blackByte]
  | a :: b :: c :: d :: rest =>
    have hg : goCopy (a :: b :: c :: d :: rest) [0, 0, 0, 255] = (0 :: 0 :: 0 :: 255 :: rest, 4) := by
      simp [goCopy]
    obtain ⟨out, ho, hl, hb⟩ := paintLoop_spec (a :: b :: c :: d :: rest).length
      (0 :: 0 :: 0 :: 255 :: rest) 4 (by omega) (dvd_refl 4) (by simp)
      (by
        intro k hk _
        interval_cases k <;> simp [blackByte])
    refine ⟨out, ?_, ?_, ?_⟩
    · simp only [paint, hg]; exact ho
    · rw [hl]; simp
    · intro k hk; exact hb k (by simpa using hk)

/-! ## `GetDisplayBounds` -/

/-- C4. When the connection, the xinerama initialisation and the query succeed,
the reply has `Number = len(ScreenInfo) ≥ 1` and `0 ≤ index < Number`,
`GetDisplayBounds(index)` is the rectangle with `Min = (XOrg[index] - XOrg[0],
YOrg[index] - YOrg[0])` and `Max = Min + (Width[index], Height[index])`; for
index 0 its `Min` is `(0, 0)`. -/
theorem GetDisplayBounds_translation (env : Env) (w : World) (reply : QueryScreensReply)
    (index : Int) (hconn : (newXGBConn env w).1.2 = none) (hinit : env.xineramaInit = none)
    (hq : env.QueryScreens = .ok reply) (hnum : reply.Number = reply.ScreenInfo.length)
    (hpos : 1 ≤ reply.Number) (h0 : 0 ≤ index) (hlt : index < reply.Number) :
    ∃ primary screen, reply.ScreenInfo[0]? = some primary ∧
      reply.ScreenInfo[index.toNat]? = some screen ∧
      (GetDisplayBounds env w index).1 =
        ⟨⟨screen.XOrg - primary.XOrg, screen.YOrg - primary.YOrg⟩,
         ⟨screen.XOrg - primary.XOrg + screen.Width,
          screen.YOrg - primary.YOrg + screen.Height⟩⟩ ∧
      (index = 0 → (GetDisplayBounds env w index).1.Min = ⟨0, 0⟩) := by
  have hi : index.toNat < reply.ScreenInfo.length := by omega
  have hz : 0 < reply.ScreenInfo.length := by omega
  have e0 : reply.ScreenInfo[0]? = some reply.ScreenInfo[0] := List.getElem?_eq_getElem hz
  have ei : reply.ScreenInfo[index.toNat]? = some reply.ScreenInfo[index.toNat] :=
    List.getElem?_eq_getElem hi
  have hval : (GetDisplayBounds env w index).1 =
      ⟨⟨reply.ScreenInfo[index.toNat].XOrg - reply.ScreenInfo[0].XOrg,
        reply.ScreenInfo[index.toNat].YOrg - reply.ScreenInfo[0].YOrg⟩,
       ⟨reply.ScreenInfo[index.toNat].XOrg - reply.ScreenInfo[0].XOrg
          + reply.ScreenInfo[index.toNat].Width,
        reply.ScreenInfo[index.toNat].YOrg - reply.ScreenInfo[0].YOrg
          + reply.ScreenInfo[index.toNat].Height⟩⟩ := by
    rcases hc : newXGBConn env w with ⟨⟨c, e⟩, w1⟩
    rw [hc] at hconn
    simp only at hconn
    subst hconn
    have hge : ¬ (index ≥ (reply.Number : Int)) := by omega
    have e0' : reply.ScreenInfo[Int.toNat 0]? = some reply.ScreenInfo[0] := e0
    simp only [GetDisplayBounds, getDisplayBoundsBody, hc, hinit, hq, hge, if_false,
      indexScreenInfo, h0, if_true, le_refl, e0', ei, Rect]
    rw [if_neg (by omega), if_neg (by omega)]
  refine ⟨reply.ScreenInfo[0], reply.ScreenInfo[index.toNat], e0, ei, hval, ?_⟩
  intro hidx
  subst hidx
  rw [hval]
  simp

/-- `GetDisplayBounds` on the sample collaborators, index 0. -/
theorem GetDisplayBounds_translation_witness :
    ∃ primary screen, (⟨1, [⟨0, 0, 2, 2⟩]⟩ : QueryScreensReply).ScreenInfo[0]? = some primary ∧
      (⟨1, [⟨0, 0, 2, 2⟩]⟩ : QueryScreensReply).ScreenInfo[(0 : Int).toNat]? = some screen ∧
      (GetDisplayBounds sampleEnv World.fresh 0).1 =
        ⟨⟨screen.XOrg - primary.XOrg, screen.YOrg - primary.YOrg⟩,
         ⟨screen.XOrg - primary.XOrg + screen.Width,
          screen.YOrg - primary.YOrg + screen.Height⟩⟩ ∧
      ((0 : Int) = 0 → (GetDisplayBounds sampleEnv World.fresh 0).1.Min = ⟨0, 0⟩) :=
  GetDisplayBounds_translation sampleEnv World.fresh ⟨1, [⟨0, 0, 2, 2⟩]⟩ 0 rfl rfl rfl rfl
    (by decide) (by decide) (by decide)

/-- C5. `GetDisplayBounds` returns the zero rectangle when the connection, the
xinerama initialisation or the query fails, and for every reply when the index
is out of range, `index ≥ Number` as well as `index < 0`; a panic of its body
(the indexing of `ScreenInfo`) is recovered into the zero rectangle, so no
fault reaches the caller. -/
theorem GetDisplayBounds_out_of_range (env : Env) (w : World) (index : Int)
    (h : (newXGBConn env w).1.2 ≠ none ∨ env.xineramaInit ≠ none ∨
      (∃ err, env.QueryScreens = .error err) ∨
      (∃ reply, env.QueryScreens = .ok reply ∧ (index ≥ reply.Number ∨ index < 0))) :
    (GetDisplayBounds env w index).1 = ZR ∧
    (∀ msg w1, getDisplayBoundsBody env w index = (.error msg, w1) →
      GetDisplayBounds env w index = (ZR, w1)) := by
  refine ⟨?_, fun msg w1 hb => by simp [GetDisplayBounds, hb]⟩
  rcases hc : newXGBConn env w with ⟨⟨c, e⟩, w1⟩
  rw [hc] at h
  cases e with
  | some err => simp [GetDisplayBounds, getDisplayBoundsBody, hc]
  | none =>
    cases hi : env.xineramaInit with
    | some err => simp [GetDisplayBounds, getDisplayBoundsBody, hc, hi]
    | none =>
      cases hq : env.QueryScreens with
      | error err => simp [GetDisplayBounds, getDisplayBoundsBody, hc, hi, hq]
      | ok reply =>
        rcases h with h | h | ⟨err, h⟩ | ⟨reply1, h, hidx⟩
        · exact absurd rfl h
        · exact absurd hi h
        · rw [hq] at h; cases h
        · rw [hq] at h
          cases h
          by_cases hge : index ≥ (reply.Number : Int)
          · simp [GetDisplayBounds, getDisplayBoundsBody, hc, hi, hq, hge]
          · have hneg : ¬ (0 ≤ index) := by omega
            simp only [GetDisplayBounds, getDisplayBoundsBody, hc, hi, hq, hge, if_false]
            cases h0 : indexScreenInfo reply.ScreenInfo 0 with
            | error msg => rfl
            | ok primary =>
              simp only [indexScreenInfo, hneg, if_false]

/-- `GetDisplayBounds(-1)` on the sample collaborators: the negative index
passes the guard and the indexing panics. -/
theorem GetDisplayBounds_out_of_range_witness :
    (GetDisplayBounds sampleEnv World.fresh (-1)).1 = ZR ∧
    (∀ msg w1, getDisplayBoundsBody sampleEnv World.fresh (-1) = (.error msg, w1) →
      GetDisplayBounds sampleEnv World.fresh (-1) = (ZR, w1)) :=
  GetDisplayBounds_out_of_range sampleEnv World.fresh (-1)
    (Or.inr (Or.inr (Or.inr ⟨⟨1, [⟨0, 0, 2, 2⟩]⟩, rfl, Or.inr (by decide)⟩)))

/-! ## Faults of `Capture` -/

/-- The body of `Capture` always ends, and when it ends by a `return` the two
results are a raster without an error or an error without a raster. -/
theorem captureBody_exits (env : Env) (w : World) (x y width height : Int) :
    ∃ ex w1, captureBody env w x y width height = some (ex, w1) ∧
      ∀ img e, ex = .ret img e →
        (∃ i, img = some i ∧ e = none) ∨ (img = none ∧ ∃ err, e = some err) := by
  unfold captureBody
  rcases newXGBConn env w with ⟨⟨c, e⟩, w1⟩
  cases e with
  | some err => exact ⟨_, _, rfl, by simp⟩
  | none =>
    cases env.xineramaInit with
    | some err => exact ⟨_, _, rfl, by simp⟩
    | none =>
      cases env.QueryScreens with
      | error err => exact ⟨_, _, rfl, by simp⟩
      | ok reply =>
        rcases reply with ⟨number, infos⟩
        cases infos with
        | nil => exact ⟨_, _, rfl, by simp⟩
        | cons primary rest =>
          simp only
          cases env.CreateImage (Rect 0 0 width height) with
          | error err => exact ⟨_, _, rfl, by simp⟩
          | ok img0 =>
            obtain ⟨pix, hp, -, -⟩ := paint_spec img0.Pix
            simp only [hp]
            split
            · exact ⟨_, _, rfl, by simp⟩
            · split
              · exact ⟨_, _, rfl, by simp⟩
              · split
                · exact ⟨_, _, rfl, by simp⟩
                · exact ⟨_, _, rfl, by simp⟩

/-- C6. For every input and every answer of the collaborators `Capture`
returns, and it returns either a raster with a nil error or a nil raster with
an error that is not nil; a panic raised anywhere in the body yields the second
form. In particular a layout reply with an empty `ScreenInfo` list, and a raw
buffer on which the blit runs out of range, are reported as errors. -/
theorem Capture_recovers (env : Env) (w : World) (x y width height : Int) :
    ∃ r, Capture env w x y width height = some r ∧
      ((∃ img, r.img = some img ∧ r.e = none) ∨ (r.img = none ∧ ∃ err, r.e = some err)) ∧
      (∀ msg w1, captureBody env w x y width height = some (.fault msg, w1) →
        r = ⟨none, some msg, w1⟩) ∧
      ((newXGBConn env w).1.2 = none → env.xineramaInit = none →
        (∃ number, env.QueryScreens = .ok ⟨number, []⟩) →
        r.img = none ∧ ∃ err, r.e = some err) := by
  obtain ⟨ex, w1, hb, hform⟩ := captureBody_exits env w x y width height
  cases ex with
  | ret img e =>
    refine ⟨⟨img, e, w1⟩, by simp [Capture, hb], hform img e rfl, ?_, ?_⟩
    · intro msg w2 h
      rw [hb] at h
      cases h
    · intro hconn hinit hq
      obtain ⟨number, hq⟩ := hq
      rcases hc : newXGBConn env w with ⟨⟨c, e1⟩, w2⟩
      rw [hc] at hconn
      simp only at hconn
      subst hconn
      simp [captureBody, hc, hinit, hq] at hb
  | fault msg =>
    refine ⟨⟨none, some msg, w1⟩, by simp [Capture, hb], Or.inr ⟨rfl, msg, rfl⟩, ?_, ?_⟩
    · intro msg1 w2 h
      rw [hb] at h
      cases h
      rfl
    · intro _ _ _
      exact ⟨rfl, msg, rfl⟩

/-! ## Shared-memory segments on the error paths -/

/-- C3, on the code. On the shared-memory path the three deferred calls are
registered only after `shm.At` has succeeded: when `mshm.NewSegId` fails, and
when `shm.At` fails, `Capture` returns the error and the segment 7 that
`shm.Get` allocated is still allocated; when the `GetImage` request fails the
deferred calls run and nothing is left allocated, mapped or attached. -/
theorem Capture_segment_left_allocated :
    Capture { sampleEnv with NewSegId := .error "no segment id" } World.fresh 0 0 1 1 =
      some ⟨none, some "no segment id", { World.fresh with
        onceDone := true, xgbConn := some 1, attempts := 1, allocated := [7] }⟩ ∧
    Capture { sampleEnv with shmAt := fun _ => .error "cannot map" } World.fresh 0 0 1 1 =
      some ⟨none, some "cannot map", { World.fresh with
        onceDone := true, xgbConn := some 1, attempts := 1, allocated := [7] }⟩ ∧
    Capture { sampleEnv with shmGetImage := fun _ => .error "bad match" } World.fresh 0 0 1 1 =
      some ⟨none, some "bad match", { World.fresh with
        onceDone := true, xgbConn := some 1, attempts := 1, allocated := [], mapped := [],
        attached := [], requests := [shmImageRequest (Rect 0 0 1 1) 0] }⟩ := by
  refine ⟨?_, ?_, ?_⟩ <;> decide

/-! ## The region requested from the server -/

theorem Rect_screen (W H : Nat) : Rect 0 0 W H = ⟨⟨0, 0⟩, ⟨W, H⟩⟩ := by
  have hW : (0 : Int) ≤ W := Int.ofNat_nonneg W
  have hH : (0 : Int) ≤ H := Int.ofNat_nonneg H
  simp only [Rect]
  rw [if_neg (by omega), if_neg (by omega)]

/-- `Intersect` with the screen `(0, 0)-(W, H)` in closed form. -/
theorem intersect_screen_eq (W H : Nat) (t : Rectangle) :
    (Rect 0 0 W H).Intersect t =
      if max 0 t.Min.X < min (W : Int) t.Max.X ∧ max 0 t.Min.Y < min (H : Int) t.Max.Y then
        ⟨⟨max 0 t.Min.X, max 0 t.Min.Y⟩, ⟨min (W : Int) t.Max.X, min (H : Int) t.Max.Y⟩⟩
      else ZR := by
  have e1 : (if (0 : Int) < t.Min.X then t.Min.X else 0) = max 0 t.Min.X := by
    rw [max_def]; split <;> split <;> omega
  have e2 : (if (0 : Int) < t.Min.Y then t.Min.Y else 0) = max 0 t.Min.Y := by
    rw [max_def]; split <;> split <;> omega
  have e3 : (if (W : Int) > t.Max.X then t.Max.X else W) = min (W : Int) t.Max.X := by
    rw [min_def]; split <;> split <;> omega
  have e4 : (if (H : Int) > t.Max.Y then t.Max.Y else H) = min (H : Int) t.Max.Y := by
    rw [min_def]; split <;> split <;> omega
  rw [Rect_screen]
  simp only [Rectangle.Intersect, e1, e2, e3, e4, Rectangle.Empty]
  by_cases h : max 0 t.Min.X < min (W : Int) t.Max.X ∧ max 0 t.Min.Y < min (H : Int) t.Max.Y
  · rw [if_pos h, if_neg]
    simp only [Bool.or_eq_true, decide_eq_true_eq, not_or, not_le, ge_iff_le]
    exact h
  · rw [if_neg h, if_pos]
    simp only [Bool.or_eq_true, decide_eq_true_eq, ge_iff_le]
    by_contra hc
    exact h ⟨by omega, by omega⟩

/-- A rectangle cut out of the screen `(0, 0)-(W, H)` by `Intersect`, when it is
not empty, lies inside the screen. -/
theorem intersect_screen_bounds (W H : Nat) (t : Rectangle)
    (hne : ((Rect 0 0 W H).Intersect t).Empty = false) :
    0 ≤ ((Rect 0 0 W H).Intersect t).Min.X ∧
    ((Rect 0 0 W H).Intersect t).Min.X < ((Rect 0 0 W H).Intersect t).Max.X ∧
    ((Rect 0 0 W H).Intersect t).Max.X ≤ W ∧
    0 ≤ ((Rect 0 0 W H).Intersect t).Min.Y ∧
    ((Rect 0 0 W H).Intersect t).Min.Y < ((Rect 0 0 W H).Intersect t).Max.Y ∧
    ((Rect 0 0 W H).Intersect t).Max.Y ≤ H := by
  rw [intersect_screen_eq] at hne ⊢
  by_cases h : max 0 t.Min.X < min (W : Int) t.Max.X ∧ max 0 t.Min.Y < min (H : Int) t.Max.Y
  · rw [if_pos h]
    simp only
    omega
  · rw [if_neg h] at hne
    simp [ZR, Rectangle.Empty] at hne

theorem wrapInt_eq (a : Int) (h : isInt a) : wrapInt a = a := by
  unfold isInt at h
  unfold wrapInt
  omega

theorem int16_eq (a : Int) (h0 : -32768 ≤ a) (h1 : a < 32768) : int16 a = a := by
  unfold int16
  omega

theorem uint16_eq (a : Int) (h0 : 0 ≤ a) (h1 : a < 65536) : uint16 a = a := by
  unfold uint16
  omega

theorem newXGBConn_requests (env : Env) (w : World) :
    (newXGBConn env w).2.requests = w.requests := by
  unfold newXGBConn
  split <;> rfl

theorem runDeferred_requests (w : World) (d : Option (Nat × Nat)) :
    (w.runDeferred d).requests = w.requests := by
  cases d with
  | none => rfl
  | some p => rfl

/-- The block that fills `data` sends at most one image request, the one built
from `intersect`; it has sent it whenever it hands back raw bytes. -/
theorem fetch_requests (env : Env) (w : World) (useShm : Bool) (R : Rectangle) :
    ((fetch env w useShm R).2.1.requests = w.requests ∨
      (fetch env w useShm R).2.1.requests = w.requests ++
        [if useShm then shmImageRequest R env.Root else plainImageRequest R env.Root]) ∧
    (∀ data, (fetch env w useShm R).1 = .ok data →
      (fetch env w useShm R).2.1.requests = w.requests ++
        [if useShm then shmImageRequest R env.Root else plainImageRequest R env.Root]) := by
  unfold fetch
  cases useShm with
  | true =>
    simp only [if_true]
    cases env.shmGet (wrapInt (wrapInt (R.Dx * R.Dy) * 4)) with
    | error err => simp
    | ok shmId =>
      simp only []
      cases env.NewSegId with
      | error err => simp
      | ok seg =>
        simp only []
        cases env.shmAt shmId with
        | error err => simp
        | ok u =>
          simp only []
          cases env.shmGetImage (shmImageRequest R env.Root) with
          | error err => simp
          | ok written => simp
  | false =>
    simp only [Bool.false_eq_true, if_false]
    cases env.GetImage (plainImageRequest R env.Root) with
    | error err => simp
    | ok data => simp

/-- On a screen of at most 32768 by 32768 pixels the 16-bit conversions of the
image request keep the numbers of a rectangle cut out of the screen. -/
theorem imageRequest_exact (W H : Nat) (t : Rectangle) (root : Nat) (useShm : Bool)
    (hW : W ≤ 32768) (hH : H ≤ 32768)
    (hne : ((Rect 0 0 W H).Intersect t).Empty = false) :
    (if useShm then shmImageRequest ((Rect 0 0 W H).Intersect t) root
      else plainImageRequest ((Rect 0 0 W H).Intersect t) root) =
      ⟨useShm, ImageFormatZPixmap, root, ((Rect 0 0 W H).Intersect t).Min.X,
        ((Rect 0 0 W H).Intersect t).Min.Y, ((Rect 0 0 W H).Intersect t).Dx,
        ((Rect 0 0 W H).Intersect t).Dy, 0xffffffff⟩ := by
  obtain ⟨h1, h2, h3, h4, h5, h6⟩ := intersect_screen_bounds W H t hne
  have hW' : (W : Int) ≤ 32768 := by exact_mod_cast hW
  have hH' : (H : Int) ≤ 32768 := by exact_mod_cast hH
  have ex : int16 ((Rect 0 0 W H).Intersect t).Min.X = ((Rect 0 0 W H).Intersect t).Min.X :=
    int16_eq _ (by omega) (by omega)
  have ey : int16 ((Rect 0 0 W H).Intersect t).Min.Y = ((Rect 0 0 W H).Intersect t).Min.Y :=
    int16_eq _ (by omega) (by omega)
  have dx : ((Rect 0 0 W H).Intersect t).Dx =
      ((Rect 0 0 W H).Intersect t).Max.X - ((Rect 0 0 W H).Intersect t).Min.X :=
    wrapInt_eq _ (by unfold isInt; omega)
  have dy : ((Rect 0 0 W H).Intersect t).Dy =
      ((Rect 0 0 W H).Intersect t).Max.Y - ((Rect 0 0 W H).Intersect t).Min.Y :=
    wrapInt_eq _ (by unfold isInt; omega)
  have ew : uint16 ((Rect 0 0 W H).Intersect t).Dx = ((Rect 0 0 W H).Intersect t).Dx :=
    uint16_eq _ (by omega) (by omega)
  have eh : uint16 ((Rect 0 0 W H).Intersect t).Dy = ((Rect 0 0 W H).Intersect t).Dy :=
    uint16_eq _ (by omega) (by omega)
  cases useShm with
  | true => simp only [if_true, shmImageRequest, ex, ey, ew, eh]
  | false => simp only [Bool.false_eq_true, if_false, plainImageRequest, ex, ey, ew, eh]

/-- C9, amended. On a screen of at most 32768 by 32768 pixels, whatever the
collaborators answer, `Capture` sends at most one image request, only for a
transfer rectangle `R` that is not empty, and it has sent it when it returns a
raster for such an `R`; on the shared-memory path as on the fallback path the
arguments received are numerically `(R.Min.X, R.Min.Y, R.Dx, R.Dy)`, with the
plane mask `0xffffffff` and the Z-pixmap format. -/
theorem Capture_requests_transfer_rectangle (env : Env) (w : World) (x y width height : Int)
    (number : Nat) (primary : ScreenInfo) (rest : List ScreenInfo)
    (hW : env.WidthInPixels ≤ 32768) (hH : env.HeightInPixels ≤ 32768)
    (hq : env.QueryScreens = .ok ⟨number, primary :: rest⟩) :
    ∃ r, Capture env w x y width height = some r ∧
      (r.world.requests = w.requests ∨
        ((transferRect env.WidthInPixels env.HeightInPixels x y width height
            primary.XOrg primary.YOrg).Empty = false ∧
          r.world.requests = w.requests ++
            [⟨env.mshmInit.isNone, ImageFormatZPixmap, env.Root,
              (transferRect env.WidthInPixels env.HeightInPixels x y width height
                primary.XOrg primary.YOrg).Min.X,
              (transferRect env.WidthInPixels env.HeightInPixels x y width height
                primary.XOrg primary.YOrg).Min.Y,
              (transferRect env.WidthInPixels env.HeightInPixels x y width height
                primary.XOrg primary.YOrg).Dx,
              (transferRect env.WidthInPixels env.HeightInPixels x y width height
                primary.XOrg primary.YOrg).Dy, 0xffffffff⟩])) ∧
      (r.e = none →
        (transferRect env.WidthInPixels env.HeightInPixels x y width height
            primary.XOrg primary.YOrg).Empty = false →
        r.world.requests = w.requests ++
            [⟨env.mshmInit.isNone, ImageFormatZPixmap, env.Root,
              (transferRect env.WidthInPixels env.HeightInPixels x y width height
                primary.XOrg primary.YOrg).Min.X,
              (transferRect env.WidthInPixels env.HeightInPixels x y width height
                primary.XOrg primary.YOrg).Min.Y,
              (transferRect env.WidthInPixels env.HeightInPixels x y width height
                primary.XOrg primary.YOrg).Dx,
              (transferRect env.WidthInPixels env.HeightInPixels x y width height
                primary.XOrg primary.YOrg).Dy, 0xffffffff⟩]) := by
  have hreq := newXGBConn_requests env w
  unfold Capture captureBody
  rcases hc : newXGBConn env w with ⟨⟨c, e⟩, w1⟩
  rw [hc] at hreq
  simp only at hreq
  cases e with
  | some err => exact ⟨_, rfl, Or.inl hreq, by simp⟩
  | none =>
    cases env.xineramaInit with
    | some err => exact ⟨_, rfl, Or.inl hreq, by simp⟩
    | none =>
      simp only [hq]
      cases env.CreateImage (Rect 0 0 width height) with
      | error err => exact ⟨_, rfl, Or.inl hreq, by simp⟩
      | ok img0 =>
        obtain ⟨pix, hp, -, -⟩ := paint_spec img0.Pix
        simp only [hp]
        have hex : ∀ R : Rectangle, R = transferRect env.WidthInPixels env.HeightInPixels
            x y width height primary.XOrg primary.YOrg → R.Empty = false →
            (if env.mshmInit.isNone then shmImageRequest R env.Root
              else plainImageRequest R env.Root) =
            ⟨env.mshmInit.isNone, ImageFormatZPixmap, env.Root, R.Min.X, R.Min.Y, R.Dx, R.Dy,
              0xffffffff⟩ := by
          intro R hR hne
          subst hR
          exact imageRequest_exact env.WidthInPixels env.HeightInPixels _ env.Root
            env.mshmInit.isNone hW hH hne
        generalize transferRect env.WidthInPixels env.HeightInPixels x y width height
          primary.XOrg primary.YOrg = R at hex ⊢
        have hex := hex R rfl
        by_cases hemp : R.Empty = true
        · simp only [hemp, if_true]
          exact ⟨_, rfl, Or.inl hreq, by simp⟩
        · simp only [hemp, Bool.false_eq_true, if_false]
          have hemp' : R.Empty = false := by simpa using hemp
          have hex := hex hemp'
          obtain ⟨hf1, hf2⟩ := fetch_requests env w1 env.mshmInit.isNone R
          rw [hex, hreq] at hf1 hf2
          rcases hfe : fetch env w1 env.mshmInit.isNone R with ⟨res, w2, d⟩
          rw [hfe] at hf1 hf2
          simp only at hf1 hf2
          cases res with
          | error err =>
            simp only
            refine ⟨_, rfl, ?_, by simp⟩
            simp only [runDeferred_requests]
            rcases hf1 with h | h
            · exact Or.inl h
            · exact Or.inr ⟨trivial, h⟩
          | ok data =>
            simp only
            have hs := hf2 data rfl
            generalize blit _ R x y primary.XOrg primary.YOrg data = bl
            cases bl with
            | error msg =>
              refine ⟨_, rfl, ?_, by simp⟩
              simp only [runDeferred_requests]
              exact Or.inr ⟨trivial, hs⟩
            | ok img1 =>
              refine ⟨_, rfl, ?_, ?_⟩
              · simp only [runDeferred_requests]
                exact Or.inr ⟨trivial, hs⟩
              · intro _ _
                simp only [runDeferred_requests]
                exact hs

/-- The 16-bit conversions hold the sample screen's bounds. -/
theorem Capture_requests_transfer_rectangle_witness :
    ∃ r, Capture sampleEnv World.fresh 1 1 4 4 = some r ∧
      (r.world.requests = World.fresh.requests ∨
        ((transferRect sampleEnv.WidthInPixels sampleEnv.HeightInPixels 1 1 4 4
            (⟨0, 0, 2, 2⟩ : ScreenInfo).XOrg (⟨0, 0, 2, 2⟩ : ScreenInfo).YOrg).Empty = false ∧
          r.world.requests = World.fresh.requests ++
            [⟨sampleEnv.mshmInit.isNone, ImageFormatZPixmap, sampleEnv.Root,
              (transferRect sampleEnv.WidthInPixels sampleEnv.HeightInPixels 1 1 4 4
                (⟨0, 0, 2, 2⟩ : ScreenInfo).XOrg (⟨0, 0, 2, 2⟩ : ScreenInfo).YOrg).Min.X,
              (transferRect sampleEnv.WidthInPixels sampleEnv.HeightInPixels 1 1 4 4
                (⟨0, 0, 2, 2⟩ : ScreenInfo).XOrg (⟨0, 0, 2, 2⟩ : ScreenInfo).YOrg).Min.Y,
              (transferRect sampleEnv.WidthInPixels sampleEnv.HeightInPixels 1 1 4 4
                (⟨0, 0, 2, 2⟩ : ScreenInfo).XOrg (⟨0, 0, 2, 2⟩ : ScreenInfo).YOrg).Dx,
              (transferRect sampleEnv.WidthInPixels sampleEnv.HeightInPixels 1 1 4 4
                (⟨0, 0, 2, 2⟩ : ScreenInfo).XOrg (⟨0, 0, 2, 2⟩ : ScreenInfo).YOrg).Dy,
              0xffffffff⟩])) ∧
      (r.e = none →
        (transferRect sampleEnv.WidthInPixels sampleEnv.HeightInPixels 1 1 4 4
            (⟨0, 0, 2, 2⟩ : ScreenInfo).XOrg (⟨0, 0, 2, 2⟩ : ScreenInfo).YOrg).Empty = false →
        r.world.requests = World.fresh.requests ++
            [⟨sampleEnv.mshmInit.isNone, ImageFormatZPixmap, sampleEnv.Root,
              (transferRect sampleEnv.WidthInPixels sampleEnv.HeightInPixels 1 1 4 4
                (⟨0, 0, 2, 2⟩ : ScreenInfo).XOrg (⟨0, 0, 2, 2⟩ : ScreenInfo).YOrg).Min.X,
              (transferRect sampleEnv.WidthInPixels sampleEnv.HeightInPixels 1 1 4 4
                (⟨0, 0, 2, 2⟩ : ScreenInfo).XOrg (⟨0, 0, 2, 2⟩ : ScreenInfo).YOrg).Min.Y,
              (transferRect sampleEnv.WidthInPixels sampleEnv.HeightInPixels 1 1 4 4
                (⟨0, 0, 2, 2⟩ : ScreenInfo).XOrg (⟨0, 0, 2, 2⟩ : ScreenInfo).YOrg).Dx,
              (transferRect sampleEnv.WidthInPixels sampleEnv.HeightInPixels 1 1 4 4
                (⟨0, 0, 2, 2⟩ : ScreenInfo).XOrg (⟨0, 0, 2, 2⟩ : ScreenInfo).YOrg).Dy,
              0xffffffff⟩]) :=
  Capture_requests_transfer_rectangle sampleEnv World.fresh 1 1 4 4 1 ⟨0, 0, 2, 2⟩ []
    (by decide) (by decide) rfl

/-- C9, as stated, fails: on a screen 40000 pixels wide the transfer rectangle
of `Capture(33000, 0, 1, 1)` starts at `x = 33000`, and the request that
reaches the server, on the shared-memory path and on the fallback path, has
`x = int16(33000) = -32536`. -/
theorem Capture_request_truncated :
    transferRect 40000 1 33000 0 1 1 0 0 = ⟨⟨33000, 0⟩, ⟨33001, 1⟩⟩ ∧
    (Capture { sampleEnv with WidthInPixels := 40000, HeightInPixels := 1 }
        World.fresh 33000 0 1 1).map (fun r => r.world.requests) =
      some [⟨true, ImageFormatZPixmap, 0, -32536, 0, 1, 1, 0xffffffff⟩] ∧
    (Capture { sampleEnv with
        WidthInPixels := 40000, HeightInPixels := 1, mshmInit := some "MIT-SHM missing" }
        World.fresh 33000 0 1 1).map (fun r => r.world.requests) =
      some [⟨false, ImageFormatZPixmap, 0, -32536, 0, 1, 1, 0xffffffff⟩] := by
  refine ⟨?_, ?_, ?_⟩ <;> decide

/-! ## The blit -/

/-- One pixel of the blit, inside both buffers: it succeeds, keeps the length and
changes the four bytes at `io` only. -/
theorem blitPixel_spec (pix data : List Nat) (io offset : Nat)
    (hio : io + 4 ≤ pix.length) (hoff : offset + 3 ≤ data.length) :
    ∃ pix1, blitPixel pix data io offset = .ok pix1 ∧ pix1.length = pix.length ∧
      ∀ k, pix1[k]? =
        if io ≤ k ∧ k < io + 4 then some (convByte data offset (k - io)) else pix[k]? := by
  refine ⟨(((pix.set io (data.getD (offset + 2) 0)).set (io + 1) (data.getD (offset + 1) 0)).set
    (io + 2) (data.getD offset 0)).set (io + 3) 255, ?_, ?_, ?_⟩
  · unfold blitPixel
    rw [if_pos ⟨by omega, by omega⟩, if_pos ⟨by omega, by omega⟩]
    simp only [Int.toNat_ofNat]
  · simp only [List.length_set]
  · intro k
    simp only [List.getElem?_set, List.length_set]
    by_cases h3 : io + 3 = k
    · subst h3
      rw [if_pos rfl, if_pos (by omega), if_pos ⟨by omega, by omega⟩]
      simp [convByte]
    · rw [if_neg h3]
      by_cases h2 : io + 2 = k
      · subst h2
        rw [if_pos rfl, if_pos (by omega), if_pos ⟨by omega, by omega⟩]
        simp [convByte]
      · rw [if_neg h2]
        by_cases h1 : io + 1 = k
        · subst h1
          rw [if_pos rfl, if_pos (by omega), if_pos ⟨by omega, by omega⟩]
          simp [convByte]
        · rw [if_neg h1]
          by_cases h0 : io = k
          · subst h0
            rw [if_pos rfl, if_pos (by omega), if_pos ⟨by omega, by omega⟩]
            simp [convByte]
          · rw [if_neg h0, if_neg (by omega)]

/-- A row of `cols` pixels inside both buffers: the inner loop succeeds, leaves
`io` and `offset` advanced by `4 * cols`, keeps the length and changes the
`4 * cols` bytes from `io` only. -/
theorem blitRow_spec (cols : Nat) : ∀ (pix data : List Nat) (io offset : Nat),
    io + 4 * cols ≤ pix.length → offset + 4 * cols ≤ data.length →
    isInt pix.length → isInt data.length →
    ∃ pix1, blitRow cols pix data io offset =
        .ok (pix1, ((io + 4 * cols : Nat) : Int), ((offset + 4 * cols : Nat) : Int)) ∧
      pix1.length = pix.length ∧
      ∀ k, pix1[k]? =
        if io ≤ k ∧ k < io + 4 * cols then
          some (convByte data (offset + 4 * ((k - io) / 4)) ((k - io) % 4))
        else pix[k]? := by
  induction cols with
  | zero =>
    intro pix data io offset _ _ _ _
    refine ⟨pix, by simp [blitRow], rfl, fun k => ?_⟩
    rw [if_neg (by omega)]
  | succ n ih =>
    intro pix data io offset hio hoff hpl hdl
    obtain ⟨pix1, hp1, hl1, hg1⟩ := blitPixel_spec pix data io offset (by omega) (by omega)
    have hw1 : wrapInt ((io : Int) + 4) = ((io + 4 : Nat) : Int) := by
      rw [wrapInt_eq]
      · push_cast; rfl
      · unfold isInt at hpl ⊢; omega
    have hw2 : wrapInt ((offset : Int) + 4) = ((offset + 4 : Nat) : Int) := by
      rw [wrapInt_eq]
      · push_cast; rfl
      · unfold isInt at hdl ⊢; omega
    obtain ⟨pix2, hp2, hl2, hg2⟩ := ih pix1 data (io + 4) (offset + 4) (by omega) (by omega)
      (by rw [hl1]; exact hpl) hdl
    refine ⟨pix2, ?_, by rw [hl2, hl1], fun k => ?_⟩
    · simp only [blitRow, hp1, hw1, hw2, hp2]
      have e1 : io + 4 + 4 * n = io + 4 * (n + 1) := by omega
      have e2 : offset + 4 + 4 * n = offset + 4 * (n + 1) := by omega
      rw [e1, e2]
    · rw [hg2 k, hg1 k]
      by_cases ha : io + 4 ≤ k ∧ k < io + 4 + 4 * n
      · rw [if_pos ha, if_pos ⟨by omega, by omega⟩]
        have d1 : (k - io) / 4 = (k - (io + 4)) / 4 + 1 := by omega
        have d2 : (k - io) % 4 = (k - (io + 4)) % 4 := by omega
        rw [d1, d2]
        have d3 : offset + 4 + 4 * ((k - (io + 4)) / 4) = offset + 4 * ((k - (io + 4)) / 4 + 1) := by
          omega
        rw [d3]
      · rw [if_neg ha]
        by_cases hb : io ≤ k ∧ k < io + 4
        · rw [if_pos hb, if_pos ⟨by omega, by omega⟩]
          have d1 : (k - io) / 4 = 0 := by omega
          have d2 : (k - io) % 4 = k - io := by omega
          rw [d1, d2, Nat.mul_zero, Nat.add_zero]
        · rw [if_neg hb, if_neg (by omega)]

/-- The two loops of the blit on `rows` rows of `cols` pixels, for a raster
whose rows are `s + 4 * cols` bytes apart, when every row lies inside the
raster and the raw buffer holds `4 * cols * rows` bytes: the blit succeeds,
keeps the length, stores the converted pixel `(r, q / 4)` at
`io + r * (s + 4 * cols) + q` and changes no other byte. -/
theorem blitRows_spec (rows : Nat) (cols s : Nat) (data : List Nat) (hdl : isInt data.length) :
    ∀ (pix : List Nat) (io offset : Nat),
    (∀ r, r < rows → io + r * (s + 4 * cols) + 4 * cols ≤ pix.length) →
    offset + 4 * cols * rows ≤ data.length →
    isInt pix.length →
    ∃ pix1, blitRows rows cols (s : Int) pix data io offset = .ok pix1 ∧
      pix1.length = pix.length ∧
      (∀ r q, r < rows → q < 4 * cols →
        pix1[io + r * (s + 4 * cols) + q]? =
          some (convByte data (offset + 4 * (r * cols + q / 4)) (q % 4))) ∧
      (∀ k, (∀ r q, r < rows → q < 4 * cols → k ≠ io + r * (s + 4 * cols) + q) →
        pix1[k]? = pix[k]?) := by
  induction rows with
  | zero =>
    intro pix io offset _ _ _
    exact ⟨pix, by simp [blitRows], rfl, fun r q hr => absurd hr (Nat.not_lt_zero r),
      fun k _ => rfl⟩
  | succ n ih =>
    intro pix io offset hfit hoff hpl
    have h0 := hfit 0 (Nat.succ_pos n)
    simp only [Nat.zero_mul, Nat.add_zero] at h0
    have hm : 4 * cols * (n + 1) = 4 * cols * n + 4 * cols := by ring
    obtain ⟨pix1, hp1, hl1, hg1⟩ := blitRow_spec cols pix data io offset h0 (by omega) hpl hdl
    by_cases hn : n = 0
    · subst hn
      refine ⟨pix1, ?_, hl1, ?_, ?_⟩
      · simp only [blitRows, hp1]
      · intro r q hr hq
        have hr0 : r = 0 := by omega
        subst hr0
        simp only [Nat.zero_mul, Nat.add_zero, Nat.zero_add]
        rw [hg1, if_pos ⟨by omega, by omega⟩]
        have e1 : io + q - io = q := by omega
        rw [e1]
      · intro k hk
        rw [hg1, if_neg]
        intro hc
        exact hk 0 (k - io) (by omega) (by omega) (by simp only [Nat.zero_mul]; omega)
    · have h1 := hfit 1 (by omega)
      simp only [Nat.one_mul] at h1
      have hw : wrapInt (((io + 4 * cols : Nat) : Int) + (s : Int)) =
          ((io + (s + 4 * cols) : Nat) : Int) := by
        rw [wrapInt_eq]
        · push_cast; ring
        · unfold isInt at hpl ⊢; omega
      obtain ⟨pix2, hp2, hl2, hg2, hf2⟩ := ih pix1 (io + (s + 4 * cols)) (offset + 4 * cols)
        (by
          intro r hr
          have h := hfit (r + 1) (by omega)
          have m1 : (r + 1) * (s + 4 * cols) = r * (s + 4 * cols) + (s + 4 * cols) :=
            Nat.succ_mul _ _
          rw [m1] at h
          rw [hl1]; omega)
        (by omega) (by rw [hl1]; exact hpl)
      refine ⟨pix2, ?_, by rw [hl2, hl1], ?_, ?_⟩
      · simp only [blitRows, hp1, hw, hp2]
      · intro r q hr hq
        cases r with
        | zero =>
          simp only [Nat.zero_mul, Nat.add_zero, Nat.zero_add]
          rw [hf2 (io + q) (by intro r1 q1 _ _; omega), hg1, if_pos ⟨by omega, by omega⟩]
          have e1 : io + q - io = q := by omega
          rw [e1]
        | succ r1 =>
          have h := hg2 r1 q (by omega) hq
          have m1 : (r1 + 1) * (s + 4 * cols) = r1 * (s + 4 * cols) + (s + 4 * cols) :=
            Nat.succ_mul _ _
          have m2 : (r1 + 1) * cols = r1 * cols + cols := Nat.succ_mul _ _
          have e1 : io + (r1 + 1) * (s + 4 * cols) + q =
              io + (s + 4 * cols) + r1 * (s + 4 * cols) + q := by
            rw [m1]; omega
          have e2 : offset + 4 * ((r1 + 1) * cols + q / 4) =
              offset + 4 * cols + 4 * (r1 * cols + q / 4) := by
            rw [m2]; omega
          rw [e1, e2]
          exact h
      · intro k hk
        rw [hf2 k, hg1, if_neg]
        · intro hc
          exact hk 0 (k - io) (by omega) (by omega) (by simp only [Nat.zero_mul]; omega)
        · intro r1 q1 hr1 hq1 hc
          have m1 : (r1 + 1) * (s + 4 * cols) = r1 * (s + 4 * cols) + (s + 4 * cols) :=
            Nat.succ_mul _ _
          apply hk (r1 + 1) q1 (by omega) hq1
          rw [m1]; omega

/-! ## The blit in a raster -/

theorem wrapInt_natCast (n : Nat) (h : n < 9223372036854775808) : wrapInt (n : Int) = n :=
  wrapInt_eq _ (by unfold isInt; omega)

/-- Bounds on the byte offsets of a rectangle of `Dx` by `Dy` pixels placed at
`(dx0, dy0)` in a raster of `wd` by `ht` pixels with rows of `S` bytes. -/
theorem blit_offset_bounds (S wd ht dx0 dy0 Dx Dy len : Nat) (hS : 4 * wd ≤ S)
    (hfit : S * ht ≤ len) (hxs : dx0 + Dx ≤ wd) (hys : dy0 + Dy ≤ ht)
    (hDx1 : 1 ≤ Dx) (hDy1 : 1 ≤ Dy) :
    dy0 ≤ len ∧ dy0 * S ≤ len ∧ 4 * dx0 ≤ len ∧ dy0 * S + 4 * dx0 ≤ len ∧ 4 * Dx ≤ S ∧
      S ≤ len ∧ ∀ r, r < Dy → dy0 * S + 4 * dx0 + r * S + 4 * Dx ≤ len := by
  have hrow : ∀ r, r < Dy → dy0 * S + r * S + S ≤ len := by
    intro r hr
    have h1 := Nat.mul_le_mul_right S (show dy0 + r + 1 ≤ ht by omega)
    have e1 : (dy0 + r + 1) * S = dy0 * S + r * S + S := by ring
    have e2 : ht * S = S * ht := Nat.mul_comm _ _
    omega
  have hrow0 := hrow 0 (by omega)
  simp only [Nat.zero_mul, Nat.add_zero] at hrow0
  have hS1 : S ≤ S * ht := Nat.le_mul_of_pos_right S (by omega)
  have hht : ht ≤ S * ht := Nat.le_mul_of_pos_left ht (by omega)
  refine ⟨by omega, by omega, by omega, by omega, by omega, by omega, ?_⟩
  intro r hr
  have := hrow r hr
  omega

/-- The values of `io` and `stride` before the loops of the blit. -/
theorem blit_offsets (S dx0 dy0 Dx len : Nat) (hL : len < 9223372036854775808)
    (h1 : dy0 ≤ len) (h2 : dy0 * S ≤ len) (h3 : 4 * dx0 ≤ len) (h4 : dy0 * S + 4 * dx0 ≤ len)
    (h5 : 4 * Dx ≤ S) (h6 : S ≤ len) :
    wrapInt (wrapInt (wrapInt (dy0 : Int) * (S : Int)) + wrapInt (wrapInt (dx0 : Int) * 4)) =
        ((dy0 * S + 4 * dx0 : Nat) : Int) ∧
      wrapInt ((S : Int) - wrapInt (wrapInt (Dx : Int) * 4)) = ((S - 4 * Dx : Nat) : Int) := by
  have n1 : dy0 < 9223372036854775808 := by omega
  have n2 : dy0 * S < 9223372036854775808 := by omega
  have n3 : dx0 < 9223372036854775808 := by omega
  have n4 : 4 * dx0 < 9223372036854775808 := by omega
  have n5 : dy0 * S + 4 * dx0 < 9223372036854775808 := by omega
  have n6 : Dx < 9223372036854775808 := by omega
  have n7 : 4 * Dx < 9223372036854775808 := by omega
  have n8 : S - 4 * Dx < 9223372036854775808 := by omega
  clear hL h1 h2 h3 h4 h6
  have c4 : ((dy0 : Int) * (S : Int)) = ((dy0 * S : Nat) : Int) := by push_cast; rfl
  have c6 : ((dx0 : Int) * 4) = ((4 * dx0 : Nat) : Int) := by push_cast; ring
  have c7 : (((dy0 * S : Nat) : Int) + ((4 * dx0 : Nat) : Int)) =
      ((dy0 * S + 4 * dx0 : Nat) : Int) := by push_cast; rfl
  have c9 : ((Dx : Int) * 4) = ((4 * Dx : Nat) : Int) := by push_cast; ring
  have c10 : ((S : Int) - ((4 * Dx : Nat) : Int)) = ((S - 4 * Dx : Nat) : Int) := by
    rw [Nat.cast_sub h5]
  constructor
  · rw [wrapInt_natCast dy0 n1, c4, wrapInt_natCast _ n2, wrapInt_natCast dx0 n3, c6,
      wrapInt_natCast _ n4, c7, wrapInt_natCast _ n5]
  · rw [wrapInt_natCast Dx n6, c9, wrapInt_natCast _ n7, c10, wrapInt_natCast _ n8]

/-- The blit of a rectangle `R` that is not empty and lies inside the requested
rectangle `(x+x0, y+y0)-(x+x0+width, y+y0+height)`, into a raster of that width
and height with `Stride ≥ 4*width` and `Stride*height ≤ len(Pix)`, from a raw
buffer of at least `4 * Dx * Dy` bytes: the blit succeeds, the destination
pixel `(i, j)` of the pixel `(x+x0+i, y+y0+j)` of `R` receives the converted
source pixel, and no other byte of `Pix` changes. -/
theorem blit_spec (img : RGBA) (R : Rectangle) (x y x0 y0 width height : Int) (data : List Nat)
    (hS : 4 * width ≤ img.Stride) (hfit : img.Stride * height ≤ img.Pix.length)
    (hpl : isInt img.Pix.length) (hdl : isInt data.length)
    (htx : isInt (x + x0)) (hty : isInt (y + y0))
    (hx1 : x + x0 ≤ R.Min.X) (hx2 : R.Min.X < R.Max.X) (hx3 : R.Max.X ≤ x + x0 + width)
    (hy1 : y + y0 ≤ R.Min.Y) (hy2 : R.Min.Y < R.Max.Y) (hy3 : R.Max.Y ≤ y + y0 + height)
    (hd : 4 * (R.Max.X - R.Min.X) * (R.Max.Y - R.Min.Y) ≤ data.length) :
    ∃ pix1, blit img R x y x0 y0 data = .ok { img with Pix := pix1 } ∧
      pix1.length = img.Pix.length ∧
      (∀ (i j c : Nat), R.Min.X ≤ x + x0 + i → x + x0 + i < R.Max.X →
        R.Min.Y ≤ y + y0 + j → y + y0 + j < R.Max.Y → c < 4 →
        pix1[j * img.Stride.toNat + 4 * i + c]? =
          some (convByte data (4 * ((y + y0 + j - R.Min.Y) * (R.Max.X - R.Min.X)
            + (x + x0 + i - R.Min.X))).toNat c)) ∧
      (∀ k, (∀ (i j c : Nat), R.Min.X ≤ x + x0 + i → x + x0 + i < R.Max.X →
          R.Min.Y ≤ y + y0 + j → y + y0 + j < R.Max.Y → c < 4 →
          k ≠ j * img.Stride.toNat + 4 * i + c) → pix1[k]? = img.Pix[k]?) := by
  obtain ⟨pix, stride, rect⟩ := img
  simp only at hS hfit hpl ⊢
  obtain ⟨S, rfl⟩ : ∃ S : Nat, stride = (S : Int) := ⟨stride.toNat, by omega⟩
  obtain ⟨wd, rfl⟩ : ∃ n : Nat, width = (n : Int) := ⟨width.toNat, by omega⟩
  obtain ⟨ht, rfl⟩ : ∃ n : Nat, height = (n : Int) := ⟨height.toNat, by omega⟩
  obtain ⟨dx0, hdx0⟩ : ∃ n : Nat, R.Min.X - (x + x0) = (n : Int) :=
    ⟨(R.Min.X - (x + x0)).toNat, by omega⟩
  obtain ⟨dy0, hdy0⟩ : ∃ n : Nat, R.Min.Y - (y + y0) = (n : Int) :=
    ⟨(R.Min.Y - (y + y0)).toNat, by omega⟩
  obtain ⟨Dx, hDx⟩ : ∃ n : Nat, R.Max.X - R.Min.X = (n : Int) :=
    ⟨(R.Max.X - R.Min.X).toNat, by omega⟩
  obtain ⟨Dy, hDy⟩ : ∃ n : Nat, R.Max.Y - R.Min.Y = (n : Int) :=
    ⟨(R.Max.Y - R.Min.Y).toNat, by omega⟩
  have hS' : 4 * wd ≤ S := by omega
  have hfit' : S * ht ≤ pix.length := by exact_mod_cast hfit
  have hL : pix.length < 9223372036854775808 := by unfold isInt at hpl; omega
  have hxs : dx0 + Dx ≤ wd := by omega
  have hys : dy0 + Dy ≤ ht := by omega
  have hDx1 : 1 ≤ Dx := by omega
  have hDy1 : 1 ≤ Dy := by omega
  have hd' : 4 * Dx * Dy ≤ data.length := by
    rw [hDx, hDy] at hd
    exact_mod_cast hd
  obtain ⟨n1, n2, n3, n4, n5, n6, hrow⟩ := blit_offset_bounds S wd ht dx0 dy0 Dx Dy pix.length
    hS' hfit' hxs hys hDx1 hDy1
  have hst : S - 4 * Dx + 4 * Dx = S := by omega
  obtain ⟨pix1, hp1, hl1, hg1, hf1⟩ := blitRows_spec Dy Dx (S - 4 * Dx) data hdl pix
    (dy0 * S + 4 * dx0) 0
    (by
      intro r hr
      rw [hst]
      exact hrow r hr)
    (by omega) hpl
  rw [hst] at hg1 hf1
  refine ⟨pix1, ?_, hl1, ?_, ?_⟩
  · obtain ⟨o1, o2⟩ := blit_offsets S dx0 dy0 Dx pix.length hL n1 n2 n3 n4 n5 n6
    unfold blit
    simp only []
    rw [wrapInt_eq _ htx, wrapInt_eq _ hty, hdy0, hdx0, hDx, hDy, o1, o2]
    simp only [Int.toNat_ofNat]
    rw [Nat.cast_zero] at hp1
    rw [hp1]
  · intro i j c hi1 hi2 hj1 hj2 hc
    obtain ⟨q, hq⟩ : ∃ q : Nat, i = dx0 + q := ⟨i - dx0, by omega⟩
    obtain ⟨r, hr⟩ : ∃ r : Nat, j = dy0 + r := ⟨j - dy0, by omega⟩
    subst hq hr
    have h := hg1 r (4 * q + c) (by omega) (by omega)
    have i1 : (dy0 + r) * (S : Int).toNat + 4 * (dx0 + q) + c =
        dy0 * S + 4 * dx0 + r * S + (4 * q + c) := by
      simp only [Int.toNat_ofNat]; ring
    have a1 : y + y0 + ((dy0 + r : Nat) : Int) - R.Min.Y = (r : Int) := by push_cast; omega
    have a2 : x + x0 + ((dx0 + q : Nat) : Int) - R.Min.X = (q : Int) := by push_cast; omega
    have a3 : (4 * q + c) / 4 = q := by omega
    have a4 : (4 * ((r : Int) * (Dx : Int) + (q : Int))) = ((4 * (r * Dx + q) : Nat) : Int) := by
      push_cast; rfl
    have i3 : (4 * q + c) % 4 = c := by omega
    rw [i1, a1, a2, hDx, a4, Int.toNat_ofNat, h, i3, a3, Nat.zero_add]
  · intro k hk
    apply hf1 k
    intro r q hr hq hc
    have d1 : q = 4 * (q / 4) + q % 4 := by omega
    have e : (dy0 + r) * S = dy0 * S + r * S := by ring
    apply hk (dx0 + q / 4) (dy0 + r) (q % 4) (by push_cast; omega) (by push_cast; omega)
      (by push_cast; omega) (by push_cast; omega) (by omega)
    rw [hc]
    simp only [Int.toNat_ofNat]
    rw [e]; omega

/-! ## The transfer rectangle -/

/-- When the translated corners of the request are representable as Go `int`s,
the rectangle `intersect` of `Capture` is the intersection of the requested
rectangle with the screen, in closed form. -/
theorem transferRect_eq (W H : Nat) (x y width height x0 y0 : Int)
    (hw : 0 ≤ width) (hh : 0 ≤ height)
    (h1 : isInt (x + x0)) (h2 : isInt (y + y0))
    (h3 : isInt (x + x0 + width)) (h4 : isInt (y + y0 + height)) :
    transferRect W H x y width height x0 y0 =
      if max 0 (x + x0) < min (W : Int) (x + x0 + width) ∧
          max 0 (y + y0) < min (H : Int) (y + y0 + height) then
        ⟨⟨max 0 (x + x0), max 0 (y + y0)⟩,
          ⟨min (W : Int) (x + x0 + width), min (H : Int) (y + y0 + height)⟩⟩
      else ZR := by
  have hr : Rect (x + x0) (y + y0) (x + x0 + width) (y + y0 + height) =
      ⟨⟨x + x0, y + y0⟩, ⟨x + x0 + width, y + y0 + height⟩⟩ := by
    simp only [Rect]
    rw [if_neg (by omega), if_neg (by omega)]
  unfold transferRect
  simp only [wrapInt_eq _ h1, wrapInt_eq _ h2, wrapInt_eq _ h3, wrapInt_eq _ h4, hr,
    intersect_screen_eq]

/-- With representable corners, a point lies in the transfer rectangle exactly
when it lies in the requested rectangle and on the screen. -/
theorem transferRect_In (W H : Nat) (x y width height x0 y0 : Int)
    (hw : 0 ≤ width) (hh : 0 ≤ height)
    (h1 : isInt (x + x0)) (h2 : isInt (y + y0))
    (h3 : isInt (x + x0 + width)) (h4 : isInt (y + y0 + height)) (p : Point) :
    p.In (transferRect W H x y width height x0 y0) ↔
      p.In (requested x y width height x0 y0) ∧ p.In (screenRect W H) := by
  rw [transferRect_eq W H x y width height x0 y0 hw hh h1 h2 h3 h4]
  unfold Point.In requested screenRect
  split
  · simp only
    omega
  · simp only [ZR]
    omega

/-- With representable corners, the transfer rectangle is empty exactly when
no point lies both in the requested rectangle and on the screen. -/
theorem transferRect_Empty (W H : Nat) (x y width height x0 y0 : Int)
    (hw : 0 ≤ width) (hh : 0 ≤ height)
    (h1 : isInt (x + x0)) (h2 : isInt (y + y0))
    (h3 : isInt (x + x0 + width)) (h4 : isInt (y + y0 + height)) :
    (transferRect W H x y width height x0 y0).Empty = true ↔
      ∀ p : Point, ¬ (p.In (requested x y width height x0 y0) ∧ p.In (screenRect W H)) := by
  constructor
  · intro he p hp
    rw [← transferRect_In W H x y width height x0 y0 hw hh h1 h2 h3 h4] at hp
    unfold Point.In at hp
    simp only [Rectangle.Empty, Bool.or_eq_true, decide_eq_true_eq] at he
    omega
  · intro hall
    rw [transferRect_eq W H x y width height x0 y0 hw hh h1 h2 h3 h4]
    split
    · rename_i hc
      exfalso
      apply hall ⟨max 0 (x + x0), max 0 (y + y0)⟩
      unfold Point.In requested screenRect
      simp only
      omega
    · simp [ZR, Rectangle.Empty]

/-- A transfer rectangle that is not empty lies inside the requested rectangle
and inside the screen, when the corners are representable. -/
theorem transferRect_bounds (W H : Nat) (x y width height x0 y0 : Int)
    (hw : 0 ≤ width) (hh : 0 ≤ height)
    (h1 : isInt (x + x0)) (h2 : isInt (y + y0))
    (h3 : isInt (x + x0 + width)) (h4 : isInt (y + y0 + height))
    (hne : (transferRect W H x y width height x0 y0).Empty = false) :
    x + x0 ≤ (transferRect W H x y width height x0 y0).Min.X ∧
    0 ≤ (transferRect W H x y width height x0 y0).Min.X ∧
    (transferRect W H x y width height x0 y0).Min.X <
      (transferRect W H x y width height x0 y0).Max.X ∧
    (transferRect W H x y width height x0 y0).Max.X ≤ x + x0 + width ∧
    (transferRect W H x y width height x0 y0).Max.X ≤ W ∧
    y + y0 ≤ (transferRect W H x y width height x0 y0).Min.Y ∧
    0 ≤ (transferRect W H x y width height x0 y0).Min.Y ∧
    (transferRect W H x y width height x0 y0).Min.Y <
      (transferRect W H x y width height x0 y0).Max.Y ∧
    (transferRect W H x y width height x0 y0).Max.Y ≤ y + y0 + height ∧
    (transferRect W H x y width height x0 y0).Max.Y ≤ H := by
  rw [transferRect_eq W H x y width height x0 y0 hw hh h1 h2 h3 h4] at hne ⊢
  split at hne
  · rename_i hc
    rw [if_pos hc]
    simp only
    omega
  · simp [ZR, Rectangle.Empty] at hne

/-- A byte offset `j * S + a` with `a < S` determines the row `j` and the offset
`a` within the row. -/
theorem row_col_unique (S j a j1 a1 : Nat) (ha : a < S) (ha1 : a1 < S)
    (h : j * S + a = j1 * S + a1) : j = j1 ∧ a = a1 := by
  rcases Nat.lt_trichotomy j j1 with hlt | heq | hgt
  · have h1 := Nat.mul_le_mul_right S (show j + 1 ≤ j1 by omega)
    have e1 : (j + 1) * S = j * S + S := Nat.succ_mul _ _
    omega
  · subst heq
    exact ⟨rfl, by omega⟩
  · have h1 := Nat.mul_le_mul_right S (show j1 + 1 ≤ j by omega)
    have e1 : (j1 + 1) * S = j1 * S + S := Nat.succ_mul _ _
    omega

/-- C7, amended. For a request whose translated corners `x+x0`, `y+y0`,
`x+x0+width`, `y+y0+height` are representable as Go `int`s, a raster with
`Stride ≥ 4*width` (in particular `Stride > 4*width`) that holds `height` rows,
a transfer rectangle (the `intersect` of the code) that is not empty and a raw
buffer of at least `4 * Dx * Dy` bytes, the blit succeeds and changes only
bytes `Pix[j*Stride + 4*i + c]`, `c` in 0..3, where `(i, j)` is the destination
position of a pixel `(x+x0+i, y+y0+j)` of the transfer rectangle, which receive
the converted source pixel; every byte in the padding of a row (offset in the
row at least `4*width`) and every pixel outside the transfer sub-rectangle
keep their value. -/
theorem blit_respects_stride (img : RGBA) (W H : Nat) (x y width height x0 y0 : Int)
    (data : List Nat) (hW : W < 65536) (hH : H < 65536)
    (hpl : isInt img.Pix.length) (hdl : isInt data.length)
    (hw : 0 ≤ width) (hh : 0 ≤ height)
    (r1 : isInt (x + x0)) (r2 : isInt (y + y0))
    (r3 : isInt (x + x0 + width)) (r4 : isInt (y + y0 + height))
    (hS : 4 * width ≤ img.Stride) (hfit : img.Stride * height ≤ img.Pix.length)
    (hE : (transferRect W H x y width height x0 y0).Empty = false)
    (hd : 4 * (transferRect W H x y width height x0 y0).Dx *
      (transferRect W H x y width height x0 y0).Dy ≤ data.length) :
    ∃ img1, blit img (transferRect W H x y width height x0 y0) x y x0 y0 data = .ok img1 ∧
      img1.Stride = img.Stride ∧ img1.Pix.length = img.Pix.length ∧
      (∀ p : Point, p.In (transferRect W H x y width height x0 y0) ↔
        p.In (requested x y width height x0 y0) ∧ p.In (screenRect W H)) ∧
      (∀ k : Nat,
        (∀ i j c : Nat, (⟨x + x0 + i, y + y0 + j⟩ : Point).In
            (transferRect W H x y width height x0 y0) → c < 4 →
          k ≠ j * img.Stride.toNat + 4 * i + c) →
        img1.Pix[k]? = img.Pix[k]?) ∧
      (∀ i j c : Nat, (⟨x + x0 + i, y + y0 + j⟩ : Point).In
          (transferRect W H x y width height x0 y0) → c < 4 →
        img1.Pix[j * img.Stride.toNat + 4 * i + c]? =
          some (convByte data (4 * ((y + y0 + j - (transferRect W H x y width height x0 y0).Min.Y)
            * (transferRect W H x y width height x0 y0).Dx
            + (x + x0 + i - (transferRect W H x y width height x0 y0).Min.X))).toNat c)) ∧
      (∀ j q : Nat, (j : Int) < height → 4 * width ≤ q → (q : Int) < img.Stride →
        img1.Pix[j * img.Stride.toNat + q]? = img.Pix[j * img.Stride.toNat + q]?) ∧
      (∀ i j c : Nat, (i : Int) < width → (j : Int) < height → c < 4 →
        ¬ (⟨x + x0 + i, y + y0 + j⟩ : Point).In (transferRect W H x y width height x0 y0) →
        img1.Pix[j * img.Stride.toNat + 4 * i + c]? =
          img.Pix[j * img.Stride.toNat + 4 * i + c]?) := by
  have hIn := transferRect_In W H x y width height x0 y0 hw hh r1 r2 r3 r4
  obtain ⟨b1, b2, b3, b4, b5, b6, b7, b8, b9, b10⟩ := transferRect_bounds W H x y width height
    x0 y0 hw hh r1 r2 r3 r4 hE
  have hDx : (transferRect W H x y width height x0 y0).Dx =
      (transferRect W H x y width height x0 y0).Max.X -
        (transferRect W H x y width height x0 y0).Min.X :=
    wrapInt_eq _ (by unfold isInt; omega)
  have hDy : (transferRect W H x y width height x0 y0).Dy =
      (transferRect W H x y width height x0 y0).Max.Y -
        (transferRect W H x y width height x0 y0).Min.Y :=
    wrapInt_eq _ (by unfold isInt; omega)
  rw [hDx, hDy] at hd
  rw [hDx]
  generalize transferRect W H x y width height x0 y0 = R at *
  obtain ⟨pix1, hb, hl, hA, hB⟩ := blit_spec img R x y x0 y0 width height data hS hfit hpl hdl
    r1 r2 b1 b3 b4 b6 b8 b9 hd
  have hSpos : 0 ≤ img.Stride := by omega
  have hframe : ∀ k : Nat,
      (∀ i j c : Nat, (⟨x + x0 + i, y + y0 + j⟩ : Point).In R → c < 4 →
        k ≠ j * img.Stride.toNat + 4 * i + c) → pix1[k]? = img.Pix[k]? := by
    intro k hk
    apply hB k
    intro i j c h1 h2 h3 h4 hc
    exact hk i j c ⟨h1, h2, h3, h4⟩ hc
  refine ⟨{ img with Pix := pix1 }, hb, rfl, hl, hIn, hframe, ?_, ?_, ?_⟩
  · intro i j c hin hc
    obtain ⟨h1, h2, h3, h4⟩ := hin
    exact hA i j c h1 h2 h3 h4 hc
  · intro j q hj hq1 hq2
    apply hframe
    intro i1 j1 c1 hin hc1 heq
    obtain ⟨h1, h2, h3, h4⟩ := hin
    simp only at h1 h2 h3 h4
    have hu := row_col_unique img.Stride.toNat j q j1 (4 * i1 + c1) (by omega) (by omega)
      (by omega)
    omega
  · intro i j c hi hj hc hnot
    apply hframe
    intro i1 j1 c1 hin hc1 heq
    have hin' := hin
    obtain ⟨h1, h2, h3, h4⟩ := hin
    simp only at h1 h2 h3 h4
    have hu := row_col_unique img.Stride.toNat j (4 * i + c) j1 (4 * i1 + c1) (by omega)
      (by omega) (by omega)
    have e1 : i = i1 := by omega
    have e2 : j = j1 := hu.1
    subst e1 e2
    exact hnot hin'

/-- The stride of the sample raster exceeds `4 * width`; the transfer rectangle
of the request `(1, 1, 2, 2)` on the 2 by 2 screen is the pixel `(1, 1)`. -/
theorem blit_respects_stride_witness :
    (transferRect 2 2 1 1 2 2 0 0).Empty = false ∧
    ∃ img1, blit paddedRaster (transferRect 2 2 1 1 2 2 0 0) 1 1 0 0 [10, 20, 30, 0] = .ok img1 ∧
      img1.Stride = paddedRaster.Stride ∧ img1.Pix.length = paddedRaster.Pix.length ∧
      (∀ j q : Nat, (j : Int) < 2 → 4 * (2 : Int) ≤ q → (q : Int) < paddedRaster.Stride →
        img1.Pix[j * paddedRaster.Stride.toNat + q]? =
          paddedRaster.Pix[j * paddedRaster.Stride.toNat + q]?) :=
  ⟨by decide, by
    obtain ⟨img1, h1, h2, h3, -, -, -, h7, -⟩ := blit_respects_stride paddedRaster 2 2 1 1 2 2 0 0
      [10, 20, 30, 0] (by decide) (by decide) (by decide) (by decide) (by decide) (by decide)
      (by decide) (by decide) (by decide) (by decide) (by decide) (by decide) (by decide)
      (by decide)
    exact ⟨img1, h1, h2, h3, h7⟩⟩

/-- C7, as stated, fails: for `Capture(9223372036854775807, 0, 1, 2)` on a 1 by 1
screen `x + x0 + width` wraps, `image.Rect` swaps the corners and the transfer
rectangle of the code is `(0, 0)-(1, 1)`, not empty; into a raster of width 1,
height 2 and stride 8 the blit starts at `io = 4` and writes the bytes
`Pix[4..8)`, which lie in the padding of row 0 (offset in the row `4 ≥ 4*width`). -/
theorem blit_writes_padding :
    transferRect 1 1 9223372036854775807 0 1 2 0 0 = ⟨⟨0, 0⟩, ⟨1, 1⟩⟩ ∧
    blit ⟨List.replicate 16 9, 8, Rect 0 0 1 2⟩
        (transferRect 1 1 9223372036854775807 0 1 2 0 0) 9223372036854775807 0 0 0
        [10, 20, 30, 0] =
      .ok ⟨[9, 9, 9, 9, 30, 20, 10, 255, 9, 9, 9, 9, 9, 9, 9, 9], 8, Rect 0 0 1 2⟩ := by
  refine ⟨by decide, ?_⟩
  have hR : transferRect 1 1 9223372036854775807 0 1 2 0 0 = ⟨⟨0, 0⟩, ⟨1, 1⟩⟩ := by decide
  rw [hR]
  rfl

/-! ## `Capture` below its guards -/

/-- The body of `Capture` once the connection, the xinerama initialisation, the
query (with a primary display), the allocation and the painting have gone
through. -/
theorem captureBody_of_guards (env : Env) (w : World) (x y width height : Int) (number : Nat)
    (primary : ScreenInfo) (rest : List ScreenInfo) (img0 : RGBA) (pix : List Nat)
    (hconn : (newXGBConn env w).1.2 = none) (hinit : env.xineramaInit = none)
    (hq : env.QueryScreens = .ok ⟨number, primary :: rest⟩)
    (hc : env.CreateImage (Rect 0 0 width height) = .ok img0)
    (hp : paint img0.Pix = some pix) :
    captureBody env w x y width height =
      if (transferRect env.WidthInPixels env.HeightInPixels x y width height
          primary.XOrg primary.YOrg).Empty then
        some (.ret (some { img0 with Pix := pix }) none, (newXGBConn env w).2)
      else
        match fetch env (newXGBConn env w).2 env.mshmInit.isNone
          (transferRect env.WidthInPixels env.HeightInPixels x y width height
            primary.XOrg primary.YOrg) with
        | (.error err, w1, deferred) => some (.ret none (some err), w1.runDeferred deferred)
        | (.ok data, w1, deferred) =>
          match blit { img0 with Pix := pix } (transferRect env.WidthInPixels
            env.HeightInPixels x y width height primary.XOrg primary.YOrg)
            x y primary.XOrg primary.YOrg data with
          | .error msg => some (.fault msg, w1.runDeferred deferred)
          | .ok img1 => some (.ret (some img1) none, w1.runDeferred deferred) := by
  unfold captureBody
  rcases hn : newXGBConn env w with ⟨⟨c, e⟩, w1⟩
  rw [hn] at hconn
  simp only at hconn
  subst hconn
  simp only [hinit, hq, hc, hp]

/-- On the shared-memory path the raw buffer has the size of the segment the
code allocates, `Dx * Dy * 4` bytes, whatever the server stored. -/
theorem fetch_shm_length (env : Env) (w w1 : World) (R : Rectangle) (data : List Nat)
    (d : Option (Nat × Nat)) (h : fetch env w true R = (.ok data, w1, d)) :
    data.length = (wrapInt (wrapInt (R.Dx * R.Dy) * 4)).toNat := by
  unfold fetch at h
  simp only [if_true] at h
  cases hg : env.shmGet (wrapInt (wrapInt (R.Dx * R.Dy) * 4)) with
  | error err => rw [hg] at h; simp at h
  | ok shmId =>
    rw [hg] at h
    simp only [] at h
    cases hs : env.NewSegId with
    | error err => rw [hs] at h; simp at h
    | ok seg =>
      rw [hs] at h
      simp only [] at h
      cases ha : env.shmAt shmId with
      | error err => rw [ha] at h; simp at h
      | ok u =>
        rw [ha] at h
        simp only [] at h
        cases hi : env.shmGetImage (shmImageRequest R env.Root) with
        | error err => rw [hi] at h; simp at h
        | ok written =>
          rw [hi] at h
          simp only [Prod.mk.injEq, Except.ok.injEq] at h
          rw [← h.1]
          simp only [overlay, List.length_append, List.length_take, List.length_drop,
            List.length_replicate]
          omega

/-- C10, amended. For a request whose translated corners `x+x0`, `y+y0`,
`x+x0+width`, `y+y0+height` are representable as Go `int`s, a raster with
`Stride ≥ 4*width` and `len(Pix) = Stride*height`, a transfer rectangle `R` (the
`intersect` of the code) that is not empty and a raw buffer of length
`R.Dx * R.Dy * 4`, the blit succeeds: every window `Pix[io : io+4]` and
`data[offset : offset+3]` it slices lies within its buffer (a window out of
range is the only way the blit fails), and `Capture` returns the raster
without reaching its fault-recovery branch. -/
theorem blit_in_bounds (env : Env) (w : World) (x y width height : Int) (number : Nat)
    (primary : ScreenInfo) (rest : List ScreenInfo) (img0 : RGBA) (data : List Nat)
    (w1 : World) (d : Option (Nat × Nat))
    (hW : env.WidthInPixels < 65536) (hH : env.HeightInPixels < 65536)
    (hpl : isInt img0.Pix.length)
    (hconn : (newXGBConn env w).1.2 = none) (hinit : env.xineramaInit = none)
    (hq : env.QueryScreens = .ok ⟨number, primary :: rest⟩)
    (hc : env.CreateImage (Rect 0 0 width height) = .ok img0)
    (hw : 0 ≤ width) (hh : 0 ≤ height)
    (r1 : isInt (x + primary.XOrg)) (r2 : isInt (y + primary.YOrg))
    (r3 : isInt (x + primary.XOrg + width)) (r4 : isInt (y + primary.YOrg + height))
    (hS : 4 * width ≤ img0.Stride) (hlen : (img0.Pix.length : Int) = img0.Stride * height)
    (hE : (transferRect env.WidthInPixels env.HeightInPixels x y width height
      primary.XOrg primary.YOrg).Empty = false)
    (hf : fetch env (newXGBConn env w).2 env.mshmInit.isNone
      (transferRect env.WidthInPixels env.HeightInPixels x y width height
        primary.XOrg primary.YOrg) = (.ok data, w1, d))
    (hd : (data.length : Int) =
      (transferRect env.WidthInPixels env.HeightInPixels x y width height
        primary.XOrg primary.YOrg).Dx *
      (transferRect env.WidthInPixels env.HeightInPixels x y width height
        primary.XOrg primary.YOrg).Dy * 4) :
    ∃ pix img1, paint img0.Pix = some pix ∧
      blit { img0 with Pix := pix } (transferRect env.WidthInPixels env.HeightInPixels
        x y width height primary.XOrg primary.YOrg) x y primary.XOrg primary.YOrg data
        = .ok img1 ∧
      captureBody env w x y width height = some (.ret (some img1) none, w1.runDeferred d) ∧
      Capture env w x y width height = some ⟨some img1, none, w1.runDeferred d⟩ := by
  obtain ⟨pix, hp, hpl1, -⟩ := paint_spec img0.Pix
  have hfit : img0.Stride * height ≤ (img0.Pix.length : Int) := le_of_eq hlen.symm
  obtain ⟨b1, b2, b3, b4, b5, b6, b7, b8, b9, b10⟩ := transferRect_bounds env.WidthInPixels
    env.HeightInPixels x y width height primary.XOrg primary.YOrg hw hh r1 r2 r3 r4 hE
  have hbody := captureBody_of_guards env w x y width height number primary rest img0 pix
    hconn hinit hq hc hp
  rw [hE] at hbody
  simp only [Bool.false_eq_true, if_false, hf] at hbody
  have hDx : (transferRect env.WidthInPixels env.HeightInPixels x y width height
      primary.XOrg primary.YOrg).Dx =
      (transferRect env.WidthInPixels env.HeightInPixels x y width height
        primary.XOrg primary.YOrg).Max.X -
      (transferRect env.WidthInPixels env.HeightInPixels x y width height
        primary.XOrg primary.YOrg).Min.X :=
    wrapInt_eq _ (by unfold isInt; omega)
  have hDy : (transferRect env.WidthInPixels env.HeightInPixels x y width height
      primary.XOrg primary.YOrg).Dy =
      (transferRect env.WidthInPixels env.HeightInPixels x y width height
        primary.XOrg primary.YOrg).Max.Y -
      (transferRect env.WidthInPixels env.HeightInPixels x y width height
        primary.XOrg primary.YOrg).Min.Y :=
    wrapInt_eq _ (by unfold isInt; omega)
  rw [hDx, hDy] at hd
  generalize transferRect env.WidthInPixels env.HeightInPixels x y width height
    primary.XOrg primary.YOrg = R at *
  have hprod : (R.Max.X - R.Min.X) * (R.Max.Y - R.Min.Y) ≤ 65535 * 65535 :=
    Int.mul_le_mul (by omega) (by omega) (by omega) (by omega)
  have hdl : isInt data.length := by
    unfold isInt; omega
  have hd' : 4 * (R.Max.X - R.Min.X) * (R.Max.Y - R.Min.Y) ≤ (data.length : Int) := by
    have e : 4 * (R.Max.X - R.Min.X) * (R.Max.Y - R.Min.Y) =
        (R.Max.X - R.Min.X) * (R.Max.Y - R.Min.Y) * 4 := by ring
    rw [e, hd]
  obtain ⟨pix1, hb, -, -, -⟩ := blit_spec { img0 with Pix := pix } R x y primary.XOrg
    primary.YOrg width height data hS (by simpa [hpl1] using hfit) (by simpa [hpl1] using hpl)
    hdl r1 r2 b1 b3 b4 b6 b8 b9 hd'
  rw [hb] at hbody
  simp only at hbody
  refine ⟨pix, _, hp, hb, hbody, ?_⟩
  simp only [Capture, hbody]

/-- The request `(1, 1, 2, 2)` on the sample collaborators: the transfer
rectangle is the pixel `(1, 1)` and the segment holds its 4 bytes. -/
theorem blit_in_bounds_witness :
    (transferRect 2 2 1 1 2 2 0 0).Empty = false ∧
    ∃ img1, Capture sampleEnv World.fresh 1 1 2 2 = some ⟨some img1, none,
      World.runDeferred ⟨true, some 1, none, 1, [7], [7], [3],
        [shmImageRequest (transferRect 2 2 1 1 2 2 0 0) 0]⟩ (some (3, 7))⟩ :=
  ⟨by decide, by
    obtain ⟨pix, img1, -, -, -, h⟩ := blit_in_bounds sampleEnv World.fresh 1 1 2 2 1
      ⟨0, 0, 2, 2⟩ [] (NewRGBA (Rect 0 0 2 2)) [10, 20, 30, 0]
      ⟨true, some 1, none, 1, [7], [7], [3], [shmImageRequest (transferRect 2 2 1 1 2 2 0 0) 0]⟩
      (some (3, 7)) (by decide) (by decide) (by decide) rfl rfl rfl rfl (by decide) (by decide)
      (by decide) (by decide) (by decide) (by decide) (by decide) (by decide) (by decide)
      rfl (by decide)
    exact ⟨img1, h⟩⟩

/-- C10, as stated, fails: for `Capture(9223372036854775807, 1, 1, 1)` on the 2
by 2 sample screen `x + x0 + width` wraps, `image.Rect` swaps the corners and
the transfer rectangle of the code is `(0, 1)-(2, 2)`, not empty; the raster
has `Stride = 4 = 4*width` and `len(Pix) = 4 = Stride*height`, the segment has
`R.Dx * R.Dy * 4 = 8` bytes, yet the blit starts at `io = 4`, the window
`Pix[4 : 8]` is out of range and `Capture` returns the recovered fault. -/
theorem blit_out_of_bounds :
    transferRect 2 2 9223372036854775807 1 1 1 0 0 = ⟨⟨0, 1⟩, ⟨2, 2⟩⟩ ∧
    blit ⟨[0, 0, 0, 255], 4, Rect 0 0 1 1⟩ ⟨⟨0, 1⟩, ⟨2, 2⟩⟩ 9223372036854775807 1 0 0
        [10, 20, 30, 0, 10, 20, 30, 0] =
      .error "runtime error: slice bounds out of range" ∧
    Capture sampleEnv World.fresh 9223372036854775807 1 1 1 =
      some ⟨none, some "runtime error: slice bounds out of range",
        ⟨true, some 1, none, 1, [], [], [],
          [⟨true, ImageFormatZPixmap, 0, 0, 1, 2, 1, 0xffffffff⟩]⟩⟩ := by
  refine ⟨by decide, rfl, by decide⟩

/-! ## The pixels of the raster returned -/

/-- Four consecutive bytes read through `drop` and `take`. -/
theorem take4_drop (pix : List Nat) (k a b c d : Nat) (h0 : pix[k]? = some a)
    (h1 : pix[k + 1]? = some b) (h2 : pix[k + 2]? = some c) (h3 : pix[k + 3]? = some d) :
    (pix.drop k).take 4 = [a, b, c, d] := by
  apply List.ext_getElem?
  intro n
  rw [List.getElem?_take, List.getElem?_drop]
  match n with
  | 0 => simpa using h0
  | 1 => simpa using h1
  | 2 => simpa using h2
  | 3 => simpa using h3
  | n + 4 => simp

/-- In a raster of `ht` rows of `S` bytes holding `wd` pixels a row, the pixel
`(i, j)` lies inside `Pix`. -/
theorem pixel_fits (S wd ht len i j : Nat) (hS : 4 * wd ≤ S) (hfit : S * ht ≤ len)
    (hi : i < wd) (hj : j < ht) : j * S + 4 * i + 4 ≤ len := by
  have h1 := Nat.mul_le_mul_right S (show j + 1 ≤ ht by omega)
  have e1 : (j + 1) * S = j * S + S := Nat.succ_mul _ _
  have e2 : ht * S = S * ht := Nat.mul_comm _ _
  omega

/-- A pixel of a painted buffer whose stride is a multiple of 4 is opaque black. -/
theorem black_pixel (pix : List Nat) (S i j : Nat) (h4 : S % 4 = 0)
    (hk : j * S + 4 * i + 4 ≤ pix.length)
    (hb : ∀ k, k < pix.length → pix[k]? = some (blackByte k)) :
    (pix.drop (j * S + 4 * i)).take 4 = [0, 0, 0, 255] := by
  obtain ⟨m, hm⟩ : ∃ m, S = 4 * m := ⟨S / 4, by omega⟩
  have e : j * S = 4 * (j * m) := by rw [hm]; ring
  have b0 := hb (j * S + 4 * i) (by omega)
  have b1 := hb (j * S + 4 * i + 1) (by omega)
  have b2 := hb (j * S + 4 * i + 2) (by omega)
  have b3 := hb (j * S + 4 * i + 3) (by omega)
  have c0 : blackByte (j * S + 4 * i) = 0 := by
    unfold blackByte; rw [if_neg (by omega)]
  have c1 : blackByte (j * S + 4 * i + 1) = 0 := by
    unfold blackByte; rw [if_neg (by omega)]
  have c2 : blackByte (j * S + 4 * i + 2) = 0 := by
    unfold blackByte; rw [if_neg (by omega)]
  have c3 : blackByte (j * S + 4 * i + 3) = 255 := by
    unfold blackByte; rw [if_pos (by omega)]
  rw [c0] at b0
  rw [c1] at b1
  rw [c2] at b2
  rw [c3] at b3
  exact take4_drop pix _ 0 0 0 255 b0 b1 b2 b3

theorem newXGBConn_segments (env : Env) (w : World) :
    (newXGBConn env w).2.allocated = w.allocated ∧ (newXGBConn env w).2.mapped = w.mapped ∧
      (newXGBConn env w).2.attached = w.attached := by
  unfold newXGBConn
  split <;> exact ⟨rfl, rfl, rfl⟩

/-- C2, amended. When the translated corners `x+x0`, `y+y0`, `x+x0+width`,
`y+y0+height` are representable as Go `int`s and no point lies both in the
requested rectangle and on the screen, `Capture` sends no request, touches no
segment and returns the raster allocated for `(0, 0)-(width, height)`, painted:
the painting ends for every buffer length and leaves `Pix[k] = [0, 0, 0,
255][k mod 4]`, so that, the stride being a multiple of 4 with `Stride ≥
4*width` and `Stride*height ≤ len(Pix)`, every pixel is `(0, 0, 0, 255)`. -/
theorem Capture_off_screen (env : Env) (w : World) (x y width height : Int) (number : Nat)
    (primary : ScreenInfo) (rest : List ScreenInfo) (img0 : RGBA)
    (hconn : (newXGBConn env w).1.2 = none) (hinit : env.xineramaInit = none)
    (hq : env.QueryScreens = .ok ⟨number, primary :: rest⟩)
    (hc : env.CreateImage (Rect 0 0 width height) = .ok img0)
    (hw : 0 ≤ width) (hh : 0 ≤ height)
    (r1 : isInt (x + primary.XOrg)) (r2 : isInt (y + primary.YOrg))
    (r3 : isInt (x + primary.XOrg + width)) (r4 : isInt (y + primary.YOrg + height))
    (hS : 4 * width ≤ img0.Stride) (h4 : img0.Stride % 4 = 0)
    (hfit : img0.Stride * height ≤ img0.Pix.length)
    (hoff : ∀ p : Point, ¬ (p.In (requested x y width height primary.XOrg primary.YOrg) ∧
      p.In (screenRect env.WidthInPixels env.HeightInPixels))) :
    ∃ img1 w1, Capture env w x y width height = some ⟨some img1, none, w1⟩ ∧
      w1.requests = w.requests ∧ w1.allocated = w.allocated ∧ w1.mapped = w.mapped ∧
      w1.attached = w.attached ∧
      Rect 0 0 width height = ⟨⟨0, 0⟩, ⟨width, height⟩⟩ ∧
      img1.Rect = img0.Rect ∧ img1.Stride = img0.Stride ∧
      img1.Pix.length = img0.Pix.length ∧
      (∀ k, k < img0.Pix.length → img1.Pix[k]? = some (blackByte k)) ∧
      (∀ i j : Nat, (i : Int) < width → (j : Int) < height →
        img1.pixel i j = [0, 0, 0, 255]) := by
  obtain ⟨pix, hp, hpl, hpb⟩ := paint_spec img0.Pix
  have hE := (transferRect_Empty env.WidthInPixels env.HeightInPixels x y width height
    primary.XOrg primary.YOrg hw hh r1 r2 r3 r4).mpr hoff
  have hbody := captureBody_of_guards env w x y width height number primary rest img0 pix
    hconn hinit hq hc hp
  rw [hE, if_pos rfl] at hbody
  obtain ⟨s1, s2, s3⟩ := newXGBConn_segments env w
  refine ⟨{ img0 with Pix := pix }, (newXGBConn env w).2, by simp only [Capture, hbody],
    newXGBConn_requests env w, s1, s2, s3, ?_, rfl, rfl, hpl, ?_, ?_⟩
  · simp only [Rect]
    rw [if_neg (by omega), if_neg (by omega)]
  · intro k hk
    exact hpb k hk
  · intro i j hi hj
    obtain ⟨S, hSe⟩ : ∃ S : Nat, img0.Stride = (S : Int) := ⟨img0.Stride.toNat, by omega⟩
    obtain ⟨wd, rfl⟩ : ∃ n : Nat, width = (n : Int) := ⟨width.toNat, by omega⟩
    obtain ⟨ht, rfl⟩ : ∃ n : Nat, height = (n : Int) := ⟨height.toNat, by omega⟩
    rw [hSe] at hS hfit h4
    have hfit' : S * ht ≤ img0.Pix.length := by exact_mod_cast hfit
    have hk := pixel_fits S wd ht img0.Pix.length i j (by omega) hfit' (by omega) (by omega)
    have e : ((j : Int) * (S : Int) + 4 * (i : Int)).toNat = j * S + 4 * i := by
      have : ((j : Int) * (S : Int) + 4 * (i : Int)) = ((j * S + 4 * i : Nat) : Int) := by
        push_cast; rfl
      rw [this, Int.toNat_ofNat]
    simp only [RGBA.pixel, hSe, e]
    exact black_pixel pix S i j (by omega) (by rw [hpl]; exact hk)
      (fun k hk => hpb k (by rw [← hpl]; exact hk))

/-- The request `(5, 5, 1, 2)` lies off the 2 by 2 sample screen. -/
theorem Capture_off_screen_witness :
    (∀ p : Point, ¬ (p.In (requested 5 5 1 2 0 0) ∧ p.In (screenRect 2 2))) ∧
    ∃ img1 w1, Capture sampleEnv World.fresh 5 5 1 2 = some ⟨some img1, none, w1⟩ ∧
      w1.requests = World.fresh.requests ∧
      (∀ i j : Nat, (i : Int) < 1 → (j : Int) < 2 → img1.pixel i j = [0, 0, 0, 255]) := by
  have hoff : ∀ p : Point, ¬ (p.In (requested 5 5 1 2 0 0) ∧ p.In (screenRect 2 2)) := by
    intro p hp
    unfold Point.In requested screenRect at hp
    simp only at hp
    omega
  refine ⟨hoff, ?_⟩
  obtain ⟨img1, w1, h1, h2, -, -, -, -, -, -, -, -, h3⟩ := Capture_off_screen sampleEnv
    World.fresh 5 5 1 2 1 ⟨0, 0, 2, 2⟩ [] (NewRGBA (Rect 0 0 1 2)) rfl rfl rfl rfl
    (by decide) (by decide) (by decide) (by decide) (by decide) (by decide) (by decide)
    (by decide) (by decide) hoff
  exact ⟨img1, w1, h1, h2, h3⟩

/-- C2, as stated, fails: the rectangle of `Capture(9223372036854775807, 0, 1,
1)` translated by the origin `(0, 0)` has no point on the 2 by 2 screen, but
`x + x0 + width` wraps, `image.Rect` swaps the corners, the code finds the
transfer rectangle `(0, 0)-(2, 1)`, sends an image request and, the blit
running out of the raster, returns an error instead of a black raster. -/
theorem Capture_off_screen_overflow :
    (∀ p : Point, ¬ (p.In (requested 9223372036854775807 0 1 1 0 0) ∧
      p.In (screenRect 2 2))) ∧
    transferRect 2 2 9223372036854775807 0 1 1 0 0 = ⟨⟨0, 0⟩, ⟨2, 1⟩⟩ ∧
    Capture sampleEnv World.fresh 9223372036854775807 0 1 1 =
      some ⟨none, some "runtime error: slice bounds out of range",
        ⟨true, some 1, none, 1, [], [], [],
          [⟨true, ImageFormatZPixmap, 0, 0, 0, 2, 1, 0xffffffff⟩]⟩⟩ := by
  refine ⟨?_, by decide, by decide⟩
  intro p hp
  unfold Point.In requested screenRect at hp
  simp only at hp
  omega

/-- The converted bytes of a source pixel stored as (blue, green, red, padding). -/
theorem convByte_of_holds (data : List Nat) (o r g b : Nat) (hb : data[o]? = some b)
    (hg : data[o + 1]? = some g) (hr : data[o + 2]? = some r) :
    convByte data o 0 = r ∧ convByte data o 1 = g ∧ convByte data o 2 = b ∧
      convByte data o 3 = 255 := by
  simp [convByte, hb, hg, hr]

/-- Two windows of four bytes that agree byte by byte. -/
theorem take4_drop_congr (p q : List Nat) (k : Nat) (h : ∀ c, c < 4 → p[k + c]? = q[k + c]?) :
    (p.drop k).take 4 = (q.drop k).take 4 := by
  apply List.ext_getElem?
  intro n
  rw [List.getElem?_take, List.getElem?_take, List.getElem?_drop, List.getElem?_drop]
  split
  · rename_i hn
    exact h n hn
  · rfl

/-- Two pixels of a raster that share a byte are the same pixel. -/
theorem pixel_unique (S wd i j c i1 j1 c1 : Nat) (hS : 4 * wd ≤ S) (hi : i < wd)
    (hi1 : i1 < wd) (hc : c < 4) (hc1 : c1 < 4)
    (h : j * S + 4 * i + c = j1 * S + 4 * i1 + c1) : i = i1 ∧ j = j1 := by
  have hu := row_col_unique S j (4 * i + c) j1 (4 * i1 + c1) (by omega) (by omega) (by omega)
  exact ⟨by omega, hu.1⟩

/-- The start of the pixel `(i, j)` in a raster whose stride is `S`. -/
theorem pixel_start (S i j : Nat) :
    ((j : Int) * (S : Int) + 4 * (i : Int)).toNat = j * S + 4 * i := by
  have h : ((j : Int) * (S : Int) + 4 * (i : Int)) = ((j * S + 4 * i : Nat) : Int) := by
    push_cast; rfl
  rw [h, Int.toNat_ofNat]

/-- The pixels of a painted raster after the blit of a rectangle `R` that is not
empty and lies inside the requested rectangle, from a raw buffer that holds
`R`: a pixel of `R` shows the source pixel as (red, green, blue, 255), every
other pixel is opaque black. -/
theorem blit_pixels (img : RGBA) (R : Rectangle) (x y x0 y0 width height : Int)
    (data : List Nat) (screen : Int → Int → Colour)
    (hS : 4 * width ≤ img.Stride) (h4 : img.Stride % 4 = 0)
    (hfit : img.Stride * height ≤ img.Pix.length)
    (hpl : isInt img.Pix.length) (hdl : isInt data.length)
    (htx : isInt (x + x0)) (hty : isInt (y + y0))
    (hx1 : x + x0 ≤ R.Min.X) (hx2 : R.Min.X < R.Max.X) (hx3 : R.Max.X ≤ x + x0 + width)
    (hy1 : y + y0 ≤ R.Min.Y) (hy2 : R.Min.Y < R.Max.Y) (hy3 : R.Max.Y ≤ y + y0 + height)
    (hblack : ∀ k, k < img.Pix.length → img.Pix[k]? = some (blackByte k))
    (hold : HoldsRect data R screen) :
    ∃ img1, blit img R x y x0 y0 data = .ok img1 ∧ img1.Stride = img.Stride ∧
      img1.Rect = img.Rect ∧
      ∀ i j : Nat, (i : Int) < width → (j : Int) < height →
        img1.pixel i j =
          if (⟨x + x0 + i, y + y0 + j⟩ : Point).In R then
            [(screen (x + x0 + i) (y + y0 + j)).red, (screen (x + x0 + i) (y + y0 + j)).green,
              (screen (x + x0 + i) (y + y0 + j)).blue, 255]
          else [0, 0, 0, 255] := by
  obtain ⟨pix1, hb, hl, hA, hB⟩ := blit_spec img R x y x0 y0 width height data hS hfit hpl hdl
    htx hty hx1 hx2 hx3 hy1 hy2 hy3 hold.1
  refine ⟨{ img with Pix := pix1 }, hb, rfl, rfl, ?_⟩
  intro i j hi hj
  obtain ⟨S, hSe⟩ : ∃ S : Nat, img.Stride = (S : Int) := ⟨img.Stride.toNat, by omega⟩
  obtain ⟨wd, rfl⟩ : ∃ n : Nat, width = (n : Int) := ⟨width.toNat, by omega⟩
  obtain ⟨ht, rfl⟩ : ∃ n : Nat, height = (n : Int) := ⟨height.toNat, by omega⟩
  rw [hSe] at hS hfit h4
  rw [hSe, Int.toNat_ofNat] at hA hB
  have hS' : 4 * wd ≤ S := by omega
  have hS4 : S % 4 = 0 := by omega
  have hi' : i < wd := by omega
  have hj' : j < ht := by omega
  have hfit' : S * ht ≤ img.Pix.length := by exact_mod_cast hfit
  have hk := pixel_fits S wd ht img.Pix.length i j hS' hfit' hi' hj'
  simp only [RGBA.pixel, hSe, pixel_start]
  by_cases hin : (⟨x + x0 + i, y + y0 + j⟩ : Point).In R
  · rw [if_pos hin]
    obtain ⟨g1, g2, g3, g4⟩ := hin
    simp only at g1 g2 g3 g4
    obtain ⟨d0, d1, d2⟩ := hold.2 (x + x0 + i) (y + y0 + j) g1 g2 g3 g4
    obtain ⟨c0, c1, c2, c3⟩ := convByte_of_holds data _ _ _ _ d0 d1 d2
    have a0 := hA i j 0 g1 g2 g3 g4 (by omega)
    have a1 := hA i j 1 g1 g2 g3 g4 (by omega)
    have a2 := hA i j 2 g1 g2 g3 g4 (by omega)
    have a3 := hA i j 3 g1 g2 g3 g4 (by omega)
    rw [c0, Nat.add_zero] at a0
    rw [c1] at a1
    rw [c2] at a2
    rw [c3] at a3
    exact take4_drop pix1 _ _ _ _ _ a0 a1 a2 a3
  · rw [if_neg hin]
    rw [take4_drop_congr pix1 img.Pix (j * S + 4 * i)]
    · exact black_pixel img.Pix S i j hS4 hk hblack
    · intro c hc
      apply hB
      intro i1 j1 c1 g1 g2 g3 g4 hc1 heq
      have hi1 : i1 < wd := by omega
      obtain ⟨e1, e2⟩ := pixel_unique S wd i j c i1 j1 c1 hS' hi' hi1 hc hc1 heq
      subst e1 e2
      exact hin ⟨g1, g2, g3, g4⟩

/-- C1, amended. When the translated corners `x+x0`, `y+y0`, `x+x0+width`,
`y+y0+height` are representable as Go `int`s, the raster allocated has a stride
that is a multiple of 4 with `Stride ≥ 4*width` and `Stride*height ≤ len(Pix)`,
and, for a transfer rectangle that is not empty, the raw buffer fetched (on
either path) holds it row-major at 4 bytes per pixel in (blue, green, red,
padding) order, `Capture` succeeds and the 4 bytes at `Pix[j*Stride + 4*i ..]`
are (red, green, blue, 255) of the source pixel at `(x+x0+i, y+y0+j)` when that
position is on the screen, and `(0, 0, 0, 255)` otherwise. -/
theorem Capture_pixels (env : Env) (w : World) (x y width height : Int) (number : Nat)
    (primary : ScreenInfo) (rest : List ScreenInfo) (img0 : RGBA)
    (screen : Int → Int → Colour)
    (hpl : isInt img0.Pix.length)
    (hconn : (newXGBConn env w).1.2 = none) (hinit : env.xineramaInit = none)
    (hq : env.QueryScreens = .ok ⟨number, primary :: rest⟩)
    (hc : env.CreateImage (Rect 0 0 width height) = .ok img0)
    (hw : 0 ≤ width) (hh : 0 ≤ height)
    (r1 : isInt (x + primary.XOrg)) (r2 : isInt (y + primary.YOrg))
    (r3 : isInt (x + primary.XOrg + width)) (r4 : isInt (y + primary.YOrg + height))
    (hS : 4 * width ≤ img0.Stride) (h4 : img0.Stride % 4 = 0)
    (hfit : img0.Stride * height ≤ img0.Pix.length)
    (hdata : (transferRect env.WidthInPixels env.HeightInPixels x y width height
        primary.XOrg primary.YOrg).Empty = false →
      ∃ data w1 d, fetch env (newXGBConn env w).2 env.mshmInit.isNone
          (transferRect env.WidthInPixels env.HeightInPixels x y width height
            primary.XOrg primary.YOrg) = (.ok data, w1, d) ∧
        isInt data.length ∧
        HoldsRect data (transferRect env.WidthInPixels env.HeightInPixels x y width height
          primary.XOrg primary.YOrg) screen) :
    ∃ img1 w2, Capture env w x y width height = some ⟨some img1, none, w2⟩ ∧
      img1.Stride = img0.Stride ∧ img1.Rect = img0.Rect ∧
      ∀ i j : Nat, (i : Int) < width → (j : Int) < height →
        img1.pixel i j =
          if (⟨x + primary.XOrg + i, y + primary.YOrg + j⟩ : Point).In
              (screenRect env.WidthInPixels env.HeightInPixels) then
            [(screen (x + primary.XOrg + i) (y + primary.YOrg + j)).red,
              (screen (x + primary.XOrg + i) (y + primary.YOrg + j)).green,
              (screen (x + primary.XOrg + i) (y + primary.YOrg + j)).blue, 255]
          else [0, 0, 0, 255] := by
  obtain ⟨pix, hp, hpl1, hpb⟩ := paint_spec img0.Pix
  have hbody := captureBody_of_guards env w x y width height number primary rest img0 pix
    hconn hinit hq hc hp
  have hIn := transferRect_In env.WidthInPixels env.HeightInPixels x y width height
    primary.XOrg primary.YOrg hw hh r1 r2 r3 r4
  have hEm := transferRect_Empty env.WidthInPixels env.HeightInPixels x y width height
    primary.XOrg primary.YOrg hw hh r1 r2 r3 r4
  have hBd := transferRect_bounds env.WidthInPixels env.HeightInPixels x y width height
    primary.XOrg primary.YOrg hw hh r1 r2 r3 r4
  have hreq : ∀ i j : Nat, (i : Int) < width → (j : Int) < height →
      (⟨x + primary.XOrg + i, y + primary.YOrg + j⟩ : Point).In
        (requested x y width height primary.XOrg primary.YOrg) := by
    intro i j hi hj
    unfold Point.In requested
    simp only
    omega
  generalize transferRect env.WidthInPixels env.HeightInPixels x y width height
    primary.XOrg primary.YOrg = R at *
  cases hE : R.Empty with
  | true =>
    rw [hE, if_pos rfl] at hbody
    refine ⟨{ img0 with Pix := pix }, (newXGBConn env w).2, by simp only [Capture, hbody],
      rfl, rfl, ?_⟩
    intro i j hi hj
    have hns : ¬ (⟨x + primary.XOrg + i, y + primary.YOrg + j⟩ : Point).In
        (screenRect env.WidthInPixels env.HeightInPixels) :=
      fun hs => hEm.mp hE _ ⟨hreq i j hi hj, hs⟩
    rw [if_neg hns]
    obtain ⟨S, hSe⟩ : ∃ S : Nat, img0.Stride = (S : Int) := ⟨img0.Stride.toNat, by omega⟩
    obtain ⟨wd, rfl⟩ : ∃ n : Nat, width = (n : Int) := ⟨width.toNat, by omega⟩
    obtain ⟨ht, rfl⟩ : ∃ n : Nat, height = (n : Int) := ⟨height.toNat, by omega⟩
    rw [hSe] at hS hfit h4
    have hfit' : S * ht ≤ img0.Pix.length := by exact_mod_cast hfit
    have hk := pixel_fits S wd ht img0.Pix.length i j (by omega) hfit' (by omega) (by omega)
    simp only [RGBA.pixel, hSe, pixel_start]
    exact black_pixel pix S i j (by omega) (by rw [hpl1]; exact hk)
      (fun k hk => hpb k (by rw [← hpl1]; exact hk))
  | false =>
    obtain ⟨data, w1, d, hf, hdl, hold⟩ := hdata hE
    obtain ⟨b1, b2, b3, b4, b5, b6, b7, b8, b9, b10⟩ := hBd hE
    obtain ⟨img1, hb, hs1, hs2, hpx⟩ := blit_pixels { img0 with Pix := pix } R x y
      primary.XOrg primary.YOrg width height data screen hS h4
      (by simpa [hpl1] using hfit) (by simpa [hpl1] using hpl) hdl r1 r2 b1 b3 b4 b6 b8 b9
      (fun k hk => hpb k (by simpa [hpl1] using hk)) hold
    rw [hE] at hbody
    simp only [Bool.false_eq_true, if_false, hf, hb] at hbody
    refine ⟨img1, w1.runDeferred d, by simp only [Capture, hbody], hs1, hs2, ?_⟩
    intro i j hi hj
    rw [hpx i j hi hj]
    by_cases hin : (⟨x + primary.XOrg + i, y + primary.YOrg + j⟩ : Point).In R
    · rw [if_pos hin, if_pos ((hIn _).mp hin).2]
    · rw [if_neg hin, if_neg (fun hs => hin ((hIn _).mpr ⟨hreq i j hi hj, hs⟩))]

/-- A one-pixel buffer holding the pixel `(0, 0)` of a screen that is
`(red, green, blue) = (30, 20, 10)` everywhere. -/
theorem holdsRect_sample :
    HoldsRect [10, 20, 30, 0] ⟨⟨0, 0⟩, ⟨1, 1⟩⟩ (fun _ _ => ⟨30, 20, 10⟩) := by
  refine ⟨by decide, ?_⟩
  intro px py h1 h2 h3 h4
  simp only at h1 h2 h3 h4
  have ex : px = 0 := by omega
  have ey : py = 0 := by omega
  subst ex ey
  decide

/-- The request `(-1, 0, 2, 1)` straddles the left edge of the sample screen:
the pixel `(0, 0)` of the raster is black, the pixel `(1, 0)` shows the screen. -/
theorem Capture_pixels_witness :
    ∃ img1 w2, Capture sampleEnv World.fresh (-1) 0 2 1 = some ⟨some img1, none, w2⟩ ∧
      img1.pixel (0 : Nat) (0 : Nat) = [0, 0, 0, 255] ∧
      img1.pixel (1 : Nat) (0 : Nat) = [30, 20, 10, 255] := by
  have hR : transferRect sampleEnv.WidthInPixels sampleEnv.HeightInPixels (-1) 0 2 1
      (⟨0, 0, 2, 2⟩ : ScreenInfo).XOrg (⟨0, 0, 2, 2⟩ : ScreenInfo).YOrg = ⟨⟨0, 0⟩, ⟨1, 1⟩⟩ := by
    decide
  obtain ⟨img1, w2, h1, -, -, h2⟩ := Capture_pixels sampleEnv World.fresh (-1) 0 2 1 1
    ⟨0, 0, 2, 2⟩ [] (NewRGBA (Rect 0 0 2 1)) (fun _ _ => ⟨30, 20, 10⟩)
    (by decide) rfl rfl rfl rfl (by decide) (by decide) (by decide) (by decide) (by decide)
    (by decide) (by decide) (by decide) (by decide)
    (fun _ => ⟨[10, 20, 30, 0],
      ⟨true, some 1, none, 1, [7], [7], [3], [shmImageRequest ⟨⟨0, 0⟩, ⟨1, 1⟩⟩ 0]⟩,
      some (3, 7), by rw [hR]; rfl, by decide, by rw [hR]; exact holdsRect_sample⟩)
  have e0 := h2 0 0 (by decide) (by decide)
  have e1 := h2 1 0 (by decide) (by decide)
  rw [if_neg (by decide)] at e0
  rw [if_pos (by decide)] at e1
  exact ⟨img1, w2, h1, e0, e1⟩

/-- C1, as stated, fails twice. For a raster of stride 5 (`≥ 4*width` with
`width = 1`) the off-screen request `(5, 5, 1, 2)` succeeds and the bytes at
`Pix[1*5 + 0 ..]` are `(0, 0, 255, 0)`, not `(0, 0, 0, 255)`: the painting
repeats the 4-byte pattern from index 0 whatever the stride. And for
`x = 9223372036854775807` on a 1 by 1 screen, `x + x0 + width` wraps, the code
fetches the pixel `(0, 0)` and stores it at the pixel `(0, 1)` of the raster,
whose position `(x+x0, y+y0+1)` is not on the screen. -/
theorem Capture_pixels_counterexample :
    ((Capture { sampleEnv with CreateImage := fun r => .ok ⟨List.replicate 10 0, 5, r⟩ }
        World.fresh 5 5 1 2).map
        (fun r => (r.e, r.img.map (fun m => (m.Stride, m.Pix.length, m.pixel 0 1)))) =
      some (none, some (5, 10, [0, 0, 255, 0])) ∧
      ¬ (⟨5 + 0 + 0, 5 + 0 + 1⟩ : Point).In (screenRect 2 2)) ∧
    ((Capture { sampleEnv with WidthInPixels := 1, HeightInPixels := 1 }
        World.fresh 9223372036854775807 0 1 2).map
        (fun r => (r.e, r.img.map (fun m => (m.Stride, m.Pix.length, m.pixel 0 1)))) =
      some (none, some (4, 8, [30, 20, 10, 255])) ∧
      ¬ (⟨9223372036854775807 + 0 + 0, 0 + 0 + 1⟩ : Point).In (screenRect 1 1)) := by
  refine ⟨⟨by decide, by decide⟩, ⟨by decide, by decide⟩⟩

end xwindow
